import Mathlib

/-!
Verification development for the DynamicFields library
(`src/unnamed/part_002`, "Dynamic Form Fields Library - Core v3.0").

The library manages repeatable groups of form fields inside a host page:
an instance locates a template element tagged `[data-field-group]`, clones
it to add fields, removes fields, enforces `minFields`/`maxFields` bounds,
keeps its add/remove buttons synchronized, and reports lifecycle events to
subscribers.

The embedding below models the parts of the page tree the library reads
and mutates:

* a field-group element (`FG`) carries the `data-field-group` attribute
  value, the optional `data-group-name` tag, its visibility, and an
  abstraction of its content (whether it contains required inputs and
  whether some required input is empty);
* a button (`Btn`) carries the marker attributes, the disabled state, the
  `is-disabled` class, `aria-disabled`, `style.display` and the
  `data-df-bound` flag;
* the world (`World`) is the `fieldsContainer`'s field-group children in
  document order, plus elements that exist outside the container (or have
  been detached but are still referenced), plus the buttons;
* an instance (`Inst`) is the per-object state: resolved configuration,
  the monotonic `fieldCounter`, `isInitialized`, the located element
  references and the event-subscriber table.

Element identity (JS object identity) is modelled by a `uid : Nat` on each
element; references held by the instance are uids.  Operations that can
throw in JS (property access on `null`/`undefined`) return `Except String`.
The deferred detachment used when `animationSpeed > 0` (an exit transition
followed by a `setTimeout` that removes the element) is modelled as having
run to completion: the library is single threaded and no other operation is
interleaved between a removal and its deferred detachment in the behaviors
considered here.

The naming rewrite applied to cloned subtrees (`updateFieldElement`,
source lines 622-641) is modelled separately at the end of the definition
section, over a pre-order flattening of the cloned subtree, because it is
the only part of the library that inspects the inner structure of a field
group.
-/

set_option linter.unusedVariables false

namespace DF

/-! ### Event notifier (source lines 728-766)

JS values carried in event payloads, payload objects (key ordered,
later keys overriding earlier ones as in an object literal with spread),
the subscriber table `this.events`, and `on`/`emit`. -/

/-- JS value occurring in an event payload object. -/
inductive JVal where
  | str (s : String)
  | num (n : Int)
  | jbool (b : Bool)
  | jnull
  deriving Repr, DecidableEq

/-- Payload object: ordered key/value list, keys unique (object semantics). -/
abbrev Obj := List (String × JVal)

/-- Subscriber callback.  A callback may throw (modelled by `Except.error`);
`emit` catches the failure and only logs it. -/
abbrev Handler := Obj → Except String Unit

/-- Instance subscriber table `this.events`: event name to ordered callbacks. -/
abbrev Table := List (String × List Handler)

/-- Set key `k` to `v` in an object: overwrite in place if the key exists
(JS objects keep the original key position), else append. -/
def objSet (o : Obj) (k : String) (v : JVal) : Obj :=
  if o.any (fun p => p.1 == k) then
    o.map (fun p => if p.1 == k then (k, v) else p)
  else o ++ [(k, v)]

/-- Payload delivered to subscribers: `{ type: eventName, ...data }`
(source line 760).  The spread writes `data`'s keys over the object that
already holds `type`, so a `type` key in `data` overrides the event name. -/
def mkEventObj (name : String) (data : Obj) : Obj :=
  data.foldl (fun o p => objSet o p.1 p.2) [("type", JVal.str name)]

/-- Lookup `this.events[name]` (source line 756). -/
def tblGet (t : Table) (n : String) : Option (List Handler) :=
  (t.find? (fun p => p.1 == n)).map (fun p => p.2)

/-- Register a listener: `on(eventName, callback)` creates the entry when
absent and appends the callback (source lines 730-736). -/
def onEv (t : Table) (n : String) (h : Handler) : Table :=
  let hs := (tblGet t n).getD []
  if t.any (fun p => p.1 == n) then
    t.map (fun p => if p.1 == n then (p.1, hs ++ [h]) else p)
  else t ++ [(n, hs ++ [h])]

/-- Outcome of running one subscriber inside `emit`'s `try`/`catch`:
either it ran normally or its failure was caught and logged. -/
inductive RunOutcome where
  | ran
  | logged (e : String)
  deriving Repr, DecidableEq

/-- Run one subscriber with the catch of source lines 759-764: a thrown
failure becomes a logged outcome instead of propagating. -/
def runHandler (h : Handler) (o : Obj) : RunOutcome :=
  match h o with
  | .ok _ => .ran
  | .error e => .logged e

/-- Subscriber invocations performed by `emit(eventName, data)` (source
lines 755-766): each callback registered for the name, in registration
order, applied to `{type: eventName, ...data}`, failures caught.  An
absent entry means no invocation (`if (!this.events[eventName]) return`). -/
def emitLog (t : Table) (n : String) (d : Obj) : List RunOutcome :=
  match tblGet t n with
  | none => []
  | some hs => hs.map (fun h => runHandler h (mkEventObj n d))

/-! ### Page-tree elements -/

/-- One field-group-relevant child of the fields container (or a referenced
element off the container).  `fgAttr` is the `data-field-group` attribute
(`none` = attribute absent; `some ""` = attribute present with empty value,
as on an authored template), `gName` is `data-group-name`, `displayNone`
models the hiding applied by `hideElement`.  `hasReq` abstracts "the
subtree contains required inputs" and `reqEmpty` abstracts "some required
input inside has an empty value". -/
structure FG where
  uid : Nat
  fgAttr : Option String
  gName : Option String
  displayNone : Bool
  hasReq : Bool
  reqEmpty : Bool
  deriving Repr, DecidableEq

/-- An add/remove control.  `isAddMarker`/`isRemoveMarker` model the
`data-add-btn`/`data-remove-btn` attributes, `gName` the optional
`data-group-name`, the rest the state written by `updateButtonState`,
`updateButtonStates` and `bindEvents`. -/
structure Btn where
  uid : Nat
  isAddMarker : Bool
  isRemoveMarker : Bool
  gName : Option String
  disabled : Bool
  hasDisabledClass : Bool
  ariaDisabled : Option String
  display : String
  dfBound : Bool
  deriving Repr, DecidableEq

/-- Shared page state: `fields` are the `[data-field-group]`-relevant
children of the fields container in document order (this includes a hidden
template kept inside the container); `offTree` holds elements that exist
outside the container or have been detached but are still referenced;
`btns` the buttons in document order; `nextUid` a supply of fresh
identities for created elements. -/
structure World where
  fields : List FG
  offTree : List FG
  btns : List Btn
  nextUid : Nat
  deriving Repr, DecidableEq

/-- Resolved configuration (constructor lines 24-38), restricted to the
fields the modelled operations read.  `fieldPfx` is the `fieldPrefix`
option. -/
structure Config where
  maxFields : Nat
  minFields : Nat
  fieldPfx : String
  animationSpeed : Nat
  validateOnAdd : Bool
  groupName : String
  hideRemoveButtonWhenMinReached : Bool
  deriving Repr, DecidableEq

/-- The `this.elements.sourceField` reference: unresolved (`querySelector`
returned null) or a reference to the element with the given uid. -/
inductive SrcLoc where
  | unresolved
  | ref (uid : Nat)
  deriving Repr, DecidableEq

/-- Whether the source-field reference resolved. -/
def srcResolved : SrcLoc → Bool
  | .unresolved => false
  | .ref _ => true

/-- Per-instance state.  `containerResolved` records whether `findElements`
resolved a fields container (when false, `this.elements.fieldsContainer`
is `undefined` and any count query throws).  `addRef`/`removeRef` are the
uids of the located buttons. -/
structure Inst where
  cfg : Config
  instanceId : String
  fieldCounter : Nat
  isInitialized : Bool
  containerResolved : Bool
  src : SrcLoc
  addRef : Option Nat
  removeRef : Option Nat
  events : Table

/-! ### Element primitives -/

/-- JS truthiness of a `getAttribute` result: `null` and `""` are falsy.
Used by the ownership test `!fieldGroupName || fieldGroupName === name`. -/
def tagFalsy : Option String → Bool
  | none => true
  | some s => s == ""

/-- Ownership filter of `getOwnFieldGroups` (source lines 437-443): an
element matches `[data-field-group]` and its `data-group-name` is falsy or
equals the instance's `groupName`. -/
def isOwn (g : String) (f : FG) : Bool :=
  f.fgAttr.isSome && (tagFalsy f.gName || f.gName == some g)

/-- Look an element up by reference (uid), among the container children and
the referenced off-container elements. -/
def lookupElem (w : World) (uid : Nat) : Option FG :=
  (w.fields ++ w.offTree).find? (fun f => f.uid == uid)

/-- Mutate the element with the given uid, wherever it lives. -/
def updElem (w : World) (uid : Nat) (f : FG → FG) : World :=
  { w with
    fields := w.fields.map (fun e => if e.uid == uid then f e else e),
    offTree := w.offTree.map (fun e => if e.uid == uid then f e else e) }

/-- Button lookup by reference (uid). -/
def btnAt (w : World) (uid : Nat) : Option Btn :=
  w.btns.find? (fun b => b.uid == uid)

/-- Mutate the button with the given uid. -/
def updBtn (w : World) (uid : Nat) (f : Btn → Btn) : World :=
  { w with btns := w.btns.map (fun b => if b.uid == uid then f b else b) }

/-- Button search of `findButton(scope, selector)` (source lines 170-181):
for a non-default group name, prefer the first button carrying
`data-group-name="groupName"`; fall back to the first button with the
marker. -/
def findButton (g : String) (isAdd : Bool) (bl : List Btn) : Option Nat :=
  let sel : Btn → Bool := fun b => if isAdd then b.isAddMarker else b.isRemoveMarker
  if g ≠ "default" then
    match bl.find? (fun b => sel b && b.gName == some g) with
    | some b => some b.uid
    | none => (bl.find? sel).map (fun b => b.uid)
  else (bl.find? sel).map (fun b => b.uid)

/-- Template search of `findElements` (source lines 141-148): for a
non-default group name prefer the first `[data-field-group]` element also
carrying `data-group-name="groupName"`, else the first
`[data-field-group]` element. -/
def findSourceField (g : String) (fl : List FG) : Option Nat :=
  let base := fl.find? (fun f => f.fgAttr.isSome)
  if g ≠ "default" then
    match fl.find? (fun f => f.fgAttr.isSome && f.gName == some g) with
    | some f => some f.uid
    | none => base.map (fun f => f.uid)
  else base.map (fun f => f.uid)

/-! ### Counting and validation -/

/-- `getOwnFieldGroups()` (source lines 437-443): the container's
`[data-field-group]` elements that pass the ownership filter. -/
def getOwnFieldGroups (inst : Inst) (w : World) : List FG :=
  w.fields.filter (isOwn inst.cfg.groupName)

/-- Count of the fields a given group name owns in a world (the value
`getOwnFieldGroups(...).length` computes for an instance configured with
that group name). -/
def countFor (g : String) (w : World) : Nat :=
  (w.fields.filter (isOwn g)).length

/-- `getCurrentFieldCount()` (source lines 646-648).  When the fields
container was never resolved, `this.elements.fieldsContainer` is
`undefined` and the `querySelectorAll` call throws. -/
def getCurrentFieldCountE (inst : Inst) (w : World) : Except String Nat :=
  if inst.containerResolved then .ok (getOwnFieldGroups inst w).length
  else .error "TypeError: fieldsContainer is undefined"

/-- `validateExistingFields()` (source lines 710-725): false when some own
field has an empty required input. -/
def validateExistingFields (inst : Inst) (w : World) : Bool :=
  (getOwnFieldGroups inst w).all (fun f => !f.reqEmpty)

/-! ### Events emitted by operations (the `emit` calls the lifecycle
operations perform, with their payloads) -/

/-- One `emit` call performed by a lifecycle operation, with the payload
fields the source passes. -/
inductive EvData where
  | initializedEv (instanceId : String)
  | maxFieldsReached (currentCount maxFields : Nat)
  | minFieldsReached (currentCount minFields : Nat)
  | validationFailed
  | fieldAdded (fieldUid fieldIndex totalFields : Nat)
  | fieldRemoved (totalFields : Nat)
  | buttonStatesUpdated (currentCount : Nat) (addDisabled removeDisabled : Bool)
  | destroyedEv (instanceId : String)
  deriving Repr, DecidableEq

/-! ### Button state (source lines 653-705) -/

/-- `updateButtonState(button, disabled)` (source lines 693-705): set or
clear the `is-disabled` class, the `disabled` property and
`aria-disabled`. -/
def updateButtonState (b : Btn) (disabled : Bool) : Btn :=
  if disabled then
    { b with hasDisabledClass := true, disabled := true, ariaDisabled := some "true" }
  else
    { b with hasDisabledClass := false, disabled := false, ariaDisabled := some "false" }

/-- `updateButtonStates()` (source lines 653-688): recompute the count,
derive `addButtonDisabled = count >= maxFields` and
`removeButtonDisabled = count <= minFields`, apply them to the located
buttons (a missing button is a guarded no-op), and additionally hide or
show the remove button when `hideRemoveButtonWhenMinReached` is set.
Emits `buttonStatesUpdated`. -/
def updateButtonStates (inst : Inst) (w : World) : World × List EvData :=
  let currentCount := (getOwnFieldGroups inst w).length
  let addDis := decide (currentCount ≥ inst.cfg.maxFields)
  let remDis := decide (currentCount ≤ inst.cfg.minFields)
  let w1 := match inst.addRef with
    | some u => updBtn w u (fun b => updateButtonState b addDis)
    | none => w
  let w2 := match inst.removeRef with
    | some u =>
      let wa := updBtn w1 u (fun b => updateButtonState b remDis)
      if inst.cfg.hideRemoveButtonWhenMinReached then
        updBtn wa u (fun b => { b with display := if remDis then "none" else "" })
      else wa
    | none => w1
  (w2, [.buttonStatesUpdated currentCount addDis remDis])

/-! ### Field creation, insertion, removal -/

/-- The field element `createNewField(index)` produces from source element
`el` (source lines 579-603): `data-field-group` set to the index, tagged
with the group name when it is not `"default"` (otherwise the clone keeps
whatever `data-group-name` the source carried), hiding styles reset,
values cleared (so its required inputs, if any, are empty). -/
def cloneFG (inst : Inst) (el : FG) (uid index : Nat) : FG :=
  { uid := uid
    fgAttr := some (toString index)
    gName := if inst.cfg.groupName ≠ "default" then some inst.cfg.groupName else el.gName
    displayNone := false
    hasReq := el.hasReq
    reqEmpty := el.hasReq }

/-- `createNewField(index)` (source lines 579-603): clone the source field
and rework it per `cloneFG`.  Throws when the source-field reference never
resolved (`cloneNode` on `null`). -/
def createNewFieldE (inst : Inst) (w : World) (index : Nat) :
    Except String (FG × World) :=
  match inst.src with
  | .unresolved => .error "TypeError: cannot read cloneNode of null"
  | .ref suid =>
    match lookupElem w suid with
    | none => .error "TypeError: stale source reference"
    | some el =>
      .ok (cloneFG inst el w.nextUid index, { w with nextUid := w.nextUid + 1 })

/-- Position computation of `insertField` (source lines 418-432): insert
the new element immediately after the last field group owned by the
instance, or append to the container when the instance owns none. -/
def insertAfterLastOwn (g : String) (nf : FG) : List FG → List FG
  | [] => [nf]
  | f :: rest =>
    if isOwn g f && !(rest.any (isOwn g)) then f :: nf :: rest
    else f :: insertAfterLastOwn g nf rest

/-- `insertField(newField, animate)` (source lines 418-432).  The entrance
animation only touches transient styles and is not modelled. -/
def insertField (inst : Inst) (w : World) (nf : FG) : World :=
  { w with fields := insertAfterLastOwn inst.cfg.groupName nf w.fields }

/-- `removeFieldElement(fieldElement)` (source lines 554-574): when the
element is still in the container, detach it (it stays referenced, so it
moves to `offTree`), then update button states and emit `fieldRemoved`
with the new total; when it already left the container
(`fieldElement.parentNode` is null) do nothing. -/
def removeFieldElement (inst : Inst) (w : World) (uid : Nat) :
    World × List EvData :=
  match w.fields.find? (fun f => f.uid == uid) with
  | some el =>
    let w1 := { w with fields := w.fields.eraseP (fun f => f.uid == uid),
                       offTree := w.offTree ++ [el] }
    let afterCount := (getOwnFieldGroups inst w1).length
    let (w2, btr) := updateButtonStates inst w1
    (w2, btr ++ [.fieldRemoved afterCount])
  | none => (w, [])

/-- `removeSpecificField(fieldElement)` (source lines 497-534): refuse and
emit `minFieldsReached` at or below the minimum; otherwise detach the
element.  When `animationSpeed > 0` the source schedules the detachment
after an exit transition; the model folds that deferred call into the
operation (no other operation is interleaved), so both branches reduce to
`removeFieldElement`. -/
def removeSpecificField (inst : Inst) (w : World) (uid : Nat) :
    Except String (Inst × World × Bool × List EvData) := do
  let currentCount ← getCurrentFieldCountE inst w
  if currentCount ≤ inst.cfg.minFields then
    return (inst, w, false, [.minFieldsReached currentCount inst.cfg.minFields])
  else
    let (w1, tr) := removeFieldElement inst w uid
    return (inst, w1, true, tr)

/-- `removeField()` (source lines 462-492): refuse and emit
`minFieldsReached` at or below the minimum, else delegate to
`removeSpecificField` on the last own field and return `true`. -/
def removeField (inst : Inst) (w : World) :
    Except String (Inst × World × Bool × List EvData) :=
  if inst.containerResolved then
    let fields := getOwnFieldGroups inst w
    let currentCount := fields.length
    if currentCount ≤ inst.cfg.minFields then
      .ok (inst, w, false, [.minFieldsReached currentCount inst.cfg.minFields])
    else
      match fields.getLast? with
      | some lastField => do
        let (inst1, w1, _, tr) ← removeSpecificField inst w lastField.uid
        return (inst1, w1, true, tr)
      | none => .error "TypeError: cannot read attributes of undefined"
  else .error "TypeError: fieldsContainer is undefined"

/-- `addField(animate = true)` (source lines 364-413): refuse and emit
`maxFieldsReached` at or above the maximum; refuse and emit
`validationFailed` when `validateOnAdd` is set and an existing own field
has an empty required input; otherwise advance the monotonic counter,
clone the template, insert the clone after the last own field, update the
buttons and emit `fieldAdded`.  Returns the created field's reference
(`some uid`) or `none` for the JS `false`. -/
def addField (inst : Inst) (w : World) (animate : Bool) :
    Except String (Inst × World × Option Nat × List EvData) := do
  let currentCount ← getCurrentFieldCountE inst w
  if currentCount ≥ inst.cfg.maxFields then
    return (inst, w, none, [.maxFieldsReached currentCount inst.cfg.maxFields])
  else if inst.cfg.validateOnAdd && !(validateExistingFields inst w) then
    return (inst, w, none, [.validationFailed])
  else
    let inst1 := { inst with fieldCounter := inst.fieldCounter + 1 }
    let (newField, w1) ← createNewFieldE inst1 w inst1.fieldCounter
    let w2 := insertField inst1 w1 newField
    let newCount := (getOwnFieldGroups inst1 w2).length
    let (w3, btr) := updateButtonStates inst1 w2
    return (inst1, w3, some newField.uid,
            btr ++ [.fieldAdded newField.uid inst1.fieldCounter newCount])

/-! ### Initialization (source lines 84-297) -/

/-- `validateSetup()` (source lines 186-200): the source field, the add
button and the fields container must all have resolved. -/
def validateSetup (inst : Inst) : Bool :=
  srcResolved inst.src && inst.addRef.isSome && inst.containerResolved

/-- `convertSourceToWorkingField()` (source lines 238-253): set the source
element's `data-field-group` to `"1"` (tagging it with the group name when
not `"default"`), set `fieldCounter` to 1, then clone it into a fresh
hidden template with the marker attributes removed and values cleared
(`createHiddenSourceField`, lines 258-269), append that clone to the
container and repoint the source reference at it.  The in-place naming
rewrite of the converted field's content is modelled separately (see the
`DElem` development below). -/
def convertSourceToWorkingField (inst : Inst) (w : World) : Inst × World :=
  match inst.src with
  | .unresolved => (inst, w)
  | .ref suid =>
    let w1 := updElem w suid (fun f =>
      let f1 := { f with fgAttr := some "1" }
      if inst.cfg.groupName ≠ "default" then { f1 with gName := some inst.cfg.groupName }
      else f1)
    let inst1 := { inst with fieldCounter := 1 }
    match lookupElem w1 suid with
    | some el =>
      let newSrc : FG :=
        { uid := w1.nextUid, fgAttr := none, gName := none,
          displayNone := true, hasReq := el.hasReq, reqEmpty := el.hasReq }
      let w2 := { w1 with fields := w1.fields ++ [newSrc], nextUid := w1.nextUid + 1 }
      ({ inst1 with src := .ref newSrc.uid }, w2)
    | none => (inst1, w1)

/-- `hideSourceField()` (source lines 274-288): hide the source element
wherever it lives. -/
def hideSourceField (inst : Inst) (w : World) : World :=
  match inst.src with
  | .ref suid => updElem w suid (fun f => { f with displayNone := true })
  | .unresolved => w

/-- Loop body of `createMinimumFields()` (source lines 293-297): call
`addField(false)` the given number of times, ignoring its return value
(but a thrown fault propagates). -/
def createMinimumFieldsAux (inst : Inst) (w : World) :
    Nat → Except String (Inst × World × List EvData)
  | 0 => .ok (inst, w, [])
  | n + 1 => do
    let (inst1, w1, _, tr) ← addField inst w false
    let (inst2, w2, trs) ← createMinimumFieldsAux inst1 w1 n
    return (inst2, w2, tr ++ trs)

/-- `createMinimumFields()` (source lines 293-297). -/
def createMinimumFields (inst : Inst) (w : World) :
    Except String (Inst × World × List EvData) :=
  createMinimumFieldsAux inst w inst.cfg.minFields

/-- `setupInitialState()` (source lines 205-233): set `fieldCounter` to
the current own count; hide the remove button when configured and at or
below the minimum; when exactly one own field is present convert the
source into working field #1; otherwise hide the source and, when no own
field is present, create `minFields` fields. -/
def setupInitialState (inst : Inst) (w : World) :
    Except String (Inst × World × List EvData) := do
  let cc ← getCurrentFieldCountE inst w
  let inst1 := { inst with fieldCounter := cc }
  let w1 := match inst1.removeRef with
    | some u =>
      if inst1.cfg.hideRemoveButtonWhenMinReached && decide (cc ≤ inst1.cfg.minFields) then
        updBtn w u (fun b => { b with display := "none" })
      else w
    | none => w
  if cc == 1 then
    let (inst2, w2) := convertSourceToWorkingField inst1 w1
    return (inst2, w2, [])
  else
    let w2 := hideSourceField inst1 w1
    if cc == 0 then createMinimumFields inst1 w2
    else return (inst1, w2, [])

/-- `bindEvents()` (source lines 319-359): idempotent listener binding via
the `data-df-bound` marker; when the add button is already bound, the whole
method returns early.  The listeners themselves are modelled by calling
the public operations directly. -/
def bindEvents (inst : Inst) (w : World) : World :=
  match inst.addRef with
  | none => w
  | some ua =>
    match btnAt w ua with
    | none => w
    | some ab =>
      if ab.dfBound then w
      else
        let w1 := updBtn w ua (fun b => { b with dfBound := true })
        match inst.removeRef with
        | some ur =>
          match btnAt w1 ur with
          | some rb =>
            if rb.dfBound then w1
            else updBtn w1 ur (fun b => { b with dfBound := true })
          | none => w1
        | none => w1

/-- `init()` (source lines 84-112): a second call is a no-op; when setup
validates, run `setupInitialState`, `bindEvents`, `updateButtonStates`,
mark initialized and emit `initialized`; when validation fails the
instance stays untouched (failure is only logged). -/
def init (inst : Inst) (w : World) :
    Except String (Inst × World × List EvData) := do
  if inst.isInitialized then
    return (inst, w, [])
  else if validateSetup inst then
    let (inst1, w1, tr1) ← setupInitialState inst w
    let w2 := bindEvents inst1 w1
    let (w3, tr2) := updateButtonStates inst1 w2
    let inst2 := { inst1 with isInitialized := true }
    return (inst2, w3, tr1 ++ tr2 ++ [.initializedEv inst2.instanceId])
  else
    return (inst, w, [])

/-- `destroy()` (source lines 801-816): clear the `data-df-bound` markers,
empty the subscriber table, clear `isInitialized`, then emit `destroyed` —
on the already-emptied table — and return the instance.  The third
component is the list of subscriber invocations that emit performs. -/
def destroy (inst : Inst) (w : World) : Inst × World × List RunOutcome :=
  let w1 := match inst.addRef with
    | some u => updBtn w u (fun b => { b with dfBound := false })
    | none => w
  let w2 := match inst.removeRef with
    | some u => updBtn w1 u (fun b => { b with dfBound := false })
    | none => w1
  let inst1 := { inst with events := [], isInitialized := false }
  let log := emitLog inst1.events "destroyed" [("instanceId", JVal.str inst1.instanceId)]
  (inst1, w2, log)

/-! ### Well-formedness of worlds

DOM nodes are distinct objects; in the embedding this corresponds to the
uids in a world being distinct and below the fresh-uid supply. -/

/-- Every element uid is below the fresh-uid supply. -/
abbrev WFuids (w : World) : Prop :=
  ∀ f ∈ w.fields ++ w.offTree, f.uid < w.nextUid

/-- The field elements carry pairwise distinct uids. -/
abbrev WFnodup (w : World) : Prop :=
  w.fields.Pairwise (fun a b => a.uid ≠ b.uid)

/-! ### Naming rewrite on a cloned subtree (source lines 579-641)

A cloned field subtree is modelled as its pre-order flattening: a list of
elements where index 0 is the clone's root and every later index is a
descendant, with `depth` recording the nesting level (root 0, its children
1, and so on).  Document order is list order.  `querySelectorAll` on the
clone returns its matching descendants (root excluded) in document order
as a static snapshot, which `forEach` then processes one by one. -/

/-- One element of a cloned subtree: nesting depth, tag name, the four
identifying attributes the rewrite touches (`name`, `id`, `for`,
`data-name`; `none` = absent) and all remaining attributes. -/
structure DElem where
  depth : Nat
  tag : String
  nameAttr : Option String
  idAttr : Option String
  forAttr : Option String
  dataName : Option String
  other : List (String × String)
  deriving Repr, DecidableEq

/-- Tag test for the `input, textarea, select` selector. -/
def isCtl (e : DElem) : Bool :=
  e.tag == "input" || e.tag == "textarea" || e.tag == "select"

/-- Match test for the selector
`input, textarea, select, label, [id], [name], [for], [data-name]`
(source lines 597, 246, 303): a control or label tag, or any of the four
attributes present. -/
def isFormElem (e : DElem) : Bool :=
  isCtl e || e.tag == "label" || e.idAttr.isSome || e.nameAttr.isSome ||
    e.forAttr.isSome || e.dataName.isSome

/-- Depth of the element at an index (0 when out of range). -/
def depthAt (l : List DElem) (j : Nat) : Nat :=
  ((l.get? j).map (fun e => e.depth)).getD 0

/-- Index `j` lies in the subtree rooted at index `k` (strict descendant):
it comes after `k` and every index on the way, itself included, is deeper
than `k`. -/
def isDesc (l : List DElem) (k j : Nat) : Bool :=
  decide (k < j) && decide (j < l.length) &&
    (List.range (j - k)).all (fun t => decide (depthAt l k < depthAt l (k + 1 + t)))

/-- First control in the subtree of index `k`, document order:
`element.querySelector('input, textarea, select')`. -/
def firstCtlDesc (l : List DElem) (k : Nat) : Option Nat :=
  (List.range l.length).find? (fun j =>
    isDesc l k j && (match l.get? j with | some e => isCtl e | none => false))

/-- Parent of the element at index `k` in the pre-order flattening: the
last earlier index with smaller depth. -/
def parentIdx (l : List DElem) (k : Nat) : Option Nat :=
  ((List.range k).filter (fun j => decide (depthAt l j < depthAt l k))).getLast?

/-- Associated control lookup for a label (source lines 635-636):
`element.querySelector('input, textarea, select') ||
element.parentElement.querySelector('input, textarea, select')`. -/
def assocCtl (l : List DElem) (k : Nat) : Option Nat :=
  match firstCtlDesc l k with
  | some j => some j
  | none =>
    match parentIdx l k with
    | some p => firstCtlDesc l p
    | none => none

/-- Attribute rewrite of source lines 625-631: a present, non-empty value
`v` becomes `fieldPrefix-index-v`; an absent or empty value is left alone
(`if (currentValue)` skips null and `""`). -/
def updAttrVal (pfx : String) (i : Nat) : Option String → Option String
  | none => none
  | some s => if s == "" then some s else some (pfx ++ "-" ++ toString i ++ "-" ++ s)

/-- Update the element at an index of the flattening. -/
def modAt : List DElem → Nat → (DElem → DElem) → List DElem
  | [], _, _ => []
  | e :: rest, 0, f => f e :: rest
  | e :: rest, n + 1, f => e :: modAt rest n f

/-- `updateFieldElement(element, index)` (source lines 622-641) acting on
the element at index `k`: first prefix each of the four identifying
attributes, then, when the element is a label, overwrite its `for` with
the associated control's current `id` (a null `id` is coerced to the
string `"null"` by `setAttribute`). -/
def updateFieldElement (pfx : String) (i : Nat) (l : List DElem) (k : Nat) :
    List DElem :=
  let l1 := modAt l k (fun e =>
    { e with nameAttr := updAttrVal pfx i e.nameAttr,
             idAttr := updAttrVal pfx i e.idAttr,
             forAttr := updAttrVal pfx i e.forAttr,
             dataName := updAttrVal pfx i e.dataName })
  match l1.get? k with
  | some e =>
    if e.tag == "label" then
      match assocCtl l1 k with
      | some j =>
        let assocId := match l1.get? j with
          | some a => a.idAttr
          | none => none
        modAt l1 k (fun e2 => { e2 with forAttr := some (assocId.getD "null") })
      | none => l1
    else l1
  | none => l1

/-- Indices of the matching descendants (root excluded), document order:
the static snapshot `newField.querySelectorAll(...)` of source line 597. -/
def fieldElemIdxs (l : List DElem) : List Nat :=
  (List.range l.length).filter (fun k =>
    decide (1 ≤ k) && (match l.get? k with | some e => isFormElem e | none => false))

/-- The naming rewrite of `createNewField` (source lines 597-598):
`formElements.forEach(element => this.updateFieldElement(element, index))`
over the snapshot, in document order. -/
def updateAllFieldElements (pfx : String) (i : Nat) (l : List DElem) :
    List DElem :=
  (fieldElemIdxs l).foldl (fun acc k => updateFieldElement pfx i acc k) l

/-- Whether the element at an index is a control (the
`input, textarea, select` selector at that position). -/
def ctlAt (l : List DElem) (j : Nat) : Bool :=
  match l.get? j with | some e => isCtl e | none => false

/-- Whether the element at an index matches the rewrite selector. -/
def formElemAt (l : List DElem) (j : Nat) : Bool :=
  match l.get? j with | some e => isFormElem e | none => false

/-- Depth and tag of the element at an index: the only data the
association lookups (`querySelector`, `parentElement`) read. -/
def dtAt (l : List DElem) (j : Nat) : Option (Nat × String) :=
  (l.get? j).map (fun e => (e.depth, e.tag))

/-! ### Derived notions used in the statements -/

/-- The `data-group-name` value a clone of element `el` ends up with. -/
def cloneTagOf (inst : Inst) (el : FG) : Option String :=
  if inst.cfg.groupName ≠ "default" then some inst.cfg.groupName else el.gName

/-- Whether a field cloned from element `el` passes the instance's own
ownership filter (always the case for a non-default group name; for the
default name it depends on the tag the source carried). -/
def cloneOwnOf (inst : Inst) (el : FG) : Bool :=
  tagFalsy (cloneTagOf inst el) || cloneTagOf inst el == some inst.cfg.groupName

/-- Property of a world stating that the instance's located buttons are in
sync with the bounds, exactly as `updateButtonStates` leaves them: the add
control disabled (class, property and `aria-disabled`) iff
`count ≥ maxFields`, the remove control disabled iff `count ≤ minFields`
and, when `hideRemoveButtonWhenMinReached` is set, hidden exactly when
disabled and shown (`display` reset to `""`) otherwise. -/
def btnSyncOk (inst : Inst) (w : World) : Bool :=
  let c := (getOwnFieldGroups inst w).length
  let aDis := decide (c ≥ inst.cfg.maxFields)
  let rDis := decide (c ≤ inst.cfg.minFields)
  (match inst.addRef with
   | none => true
   | some u =>
     match btnAt w u with
     | none => true
     | some b =>
       b.disabled == aDis && b.hasDisabledClass == aDis &&
         b.ariaDisabled == some (if aDis then "true" else "false")) &&
  (match inst.removeRef with
   | none => true
   | some u =>
     match btnAt w u with
     | none => true
     | some b =>
       b.disabled == rDis && b.hasDisabledClass == rDis &&
         (!inst.cfg.hideRemoveButtonWhenMinReached ||
           b.display == (if rDis then "none" else "")))

/-- Whether an operation threw a fault to its caller. -/
def isThrown {α : Type} : Except String α → Bool
  | .error _ => true
  | .ok _ => false

/-- The page after `removeFieldElement` detached the element with the
given uid (the element `el0` the reference resolved to): erased from the
container, still referenced. -/
def rmWorld (w : World) (uid : Nat) (el0 : FG) : World :=
  { w with fields := w.fields.eraseP (fun f => f.uid == uid),
           offTree := w.offTree ++ [el0] }

/-- The page after a successful `addField` on an instance whose source
element is `el`, before the button update: the clone of the source —
carrying the next counter value as its index — inserted after the last own
field, and the identity supply advanced. -/
def afWorld (inst : Inst) (w : World) (el : FG) : World :=
  { w with
    fields := insertAfterLastOwn inst.cfg.groupName
      (cloneFG inst el w.nextUid (inst.fieldCounter + 1)) w.fields,
    nextUid := w.nextUid + 1 }

/-- Run `init` on a state, keeping the state on a thrown fault. -/
def runInit (s : Inst × World) : Inst × World :=
  ((init s.1 s.2).toOption.map (fun x => (x.1, x.2.1))).getD s

/-- Run `addField(true)` on a state, keeping the state on a thrown fault. -/
def runAdd (s : Inst × World) : Inst × World :=
  ((addField s.1 s.2 true).toOption.map (fun x => (x.1, x.2.1))).getD s

/-- Run `removeSpecificField` on a state, keeping the state on a thrown
fault. -/
def runRemoveUid (s : Inst × World) (u : Nat) : Inst × World :=
  ((removeSpecificField s.1 s.2 u).toOption.map (fun x => (x.1, x.2.1))).getD s

/-- Run `removeField` on a state, keeping the state on a thrown fault. -/
def runRemoveLast (s : Inst × World) : Inst × World :=
  ((removeField s.1 s.2).toOption.map (fun x => (x.1, x.2.1))).getD s

/-- Own `data-field-group` attribute values (the per-field indices), in
document order. -/
def ownIdxAttrs (s : Inst × World) : List (Option String) :=
  (getOwnFieldGroups s.1 s.2).map (fun f => f.fgAttr)

/-! ### Final attribute values of the naming rewrite

These definitions name the value each element of a cloned subtree holds
after `updateAllFieldElements`; the rewrite theorem proves the rewrite
equal to them. -/

/-- `id` attribute of the element at an index. -/
def idAt (l : List DElem) (j : Nat) : Option String :=
  (l.get? j).bind (fun a => a.idAttr)

/-- Phase one of `updateFieldElement` on one element: the four identifying
attributes prefixed. -/
def rewrittenNonLabel (pfx : String) (i : Nat) (e : DElem) : DElem :=
  { e with nameAttr := updAttrVal pfx i e.nameAttr,
           idAttr := updAttrVal pfx i e.idAttr,
           forAttr := updAttrVal pfx i e.forAttr,
           dataName := updAttrVal pfx i e.dataName }

/-- Final `for` value of a label at index `k` of the original subtree `l`:
when an associated control exists at index `j`, the label's `for` becomes
the `id` the control carried at the moment the label was processed — the
already-prefixed `id` when the control precedes the label in document
order (`j < k`), the original un-prefixed `id` otherwise — with a missing
`id` coerced to the string `"null"`; when no associated control exists the
label keeps its own prefixed `for`. -/
def labelForResult (pfx : String) (i : Nat) (l : List DElem) (k : Nat)
    (e : DElem) : Option String :=
  match assocCtl l k with
  | some j =>
    some (((if j < k then updAttrVal pfx i (idAt l j) else idAt l j)).getD "null")
  | none => updAttrVal pfx i e.forAttr

/-- The element the naming rewrite leaves at a matching index `k`, stated
over the original subtree. -/
def rewrittenElem (pfx : String) (i : Nat) (l : List DElem) (k : Nat)
    (e : DElem) : DElem :=
  if e.tag == "label" then
    { rewrittenNonLabel pfx i e with forAttr := labelForResult pfx i l k e }
  else rewrittenNonLabel pfx i e

/-! ### Concrete scenario (a host page with one untagged template and an
add button, plus variants used across the developments below) -/

/-- Resolved configuration with the library defaults except where noted. -/
def sCfgD : Config :=
  { maxFields := 5, minFields := 1, fieldPfx := "field", animationSpeed := 300,
    validateOnAdd := false, groupName := "default",
    hideRemoveButtonWhenMinReached := true }

/-- Configuration with `minFields := 2`, `maxFields := 3` (valid bounds). -/
def sCfg23 : Config := { sCfgD with minFields := 2, maxFields := 3 }

/-- Configuration with `maxFields := 10`. -/
def sCfg10 : Config := { sCfgD with maxFields := 10 }

/-- An authored untagged template (`data-field-group` present with empty
value, no `data-group-name`). -/
def sTempl : FG :=
  { uid := 0, fgAttr := some "", gName := none, displayNone := false,
    hasReq := false, reqEmpty := false }

/-- An untagged add button. -/
def sAddBtn : Btn :=
  { uid := 10, isAddMarker := true, isRemoveMarker := false, gName := none,
    disabled := false, hasDisabledClass := false, ariaDisabled := none,
    display := "", dfBound := false }

/-- A page whose fields container holds exactly the template, with one add
button. -/
def sW1 : World := { fields := [sTempl], offTree := [], btns := [sAddBtn], nextUid := 1 }

/-- Freshly constructed instance on `sW1` with the located elements, under
a given configuration. -/
def sInst (c : Config) : Inst :=
  { cfg := c, instanceId := "i1", fieldCounter := 0, isInitialized := false,
    containerResolved := true, src := .ref 0, addRef := some 10,
    removeRef := none, events := [] }

/-- Instance with bounds 2..3 on the sole-template page (claim C1's
scenario), after `init`. -/
def s23 : Inst × World := runInit (sInst sCfg23, sW1)

/-- Default instance after `init` on the sole-template page. -/
def sD : Inst × World := runInit (sInst sCfgD, sW1)

/-- Instance with `maxFields := 10` after `init`, then three adds: live
fields #1..#4 (claim C4's scenario). -/
def s4 : Inst × World := runAdd (runAdd (runAdd (runInit (sInst sCfg10, sW1))))

/-- C4 scenario continued: field #3 (uid 3) removed by direct reference,
then one more add. -/
def s4done : Inst × World := runAdd (runRemoveUid s4 3)

/-- A second template tagged `"work"`, for the two-instance page. -/
def sTemplW : FG :=
  { uid := 20, fgAttr := some "", gName := some "work", displayNone := false,
    hasReq := false, reqEmpty := false }

/-- An add button tagged `"work"`. -/
def sAddBtnW : Btn := { sAddBtn with uid := 11, gName := some "work" }

/-- A page hosting the untagged template and the `"work"` template, with
one untagged add button and one `"work"` add button. -/
def sW2 : World :=
  { fields := [sTempl, sTemplW], offTree := [], btns := [sAddBtn, sAddBtnW],
    nextUid := 21 }

/-- Instance A of the two-instance page: `groupName = "default"`. -/
def sInstA : Inst := { sInst sCfgD with instanceId := "iA" }

/-- Instance B of the two-instance page: `groupName = "work"`, elements
located by `findElements`/`findButton` on the shared page. -/
def sInstB : Inst :=
  { cfg := { sCfgD with groupName := "work" }, instanceId := "iB",
    fieldCounter := 0, isInitialized := false, containerResolved := true,
    src := match findSourceField "work" sW2.fields with
           | some u => .ref u
           | none => .unresolved,
    addRef := findButton "work" true sW2.btns, removeRef := none, events := [] }

/-- The two-instance page after instance A initialized. -/
def sAB : Inst × World := runInit (sInstA, sW2)

/-- The two-instance page after instance A initialized and then added one
field (an untagged field created by A). -/
def sABadd : Inst × World := runAdd sAB

/-- Destroyed instance: the default instance initialized on the
sole-template page, then `destroy()`. -/
def sDestroyed : Inst × World :=
  ((destroy sD.1 sD.2).1, (destroy sD.1 sD.2).2.1)

/-- Own count after running `addField` on the destroyed instance. -/
def sDestroyedAddCount : Option Nat :=
  (addField sDestroyed.1 sDestroyed.2 true).toOption.map
    (fun x => (getOwnFieldGroups x.1 x.2.1).length)

/-- Instance whose setup validation failed: the fields container resolved
but the template was never found (`sourceField` is null). -/
def sInstFail : Inst := { sInst sCfgD with src := .unresolved, addRef := none }

/-- Instance whose container was never resolved (`findElements` returned
early, `this.elements` stayed empty). -/
def sInstNoC : Inst :=
  { sInst sCfgD with containerResolved := false, src := .unresolved, addRef := none }

/-- The cloned subtree of claim C6's counterexample: a wrapper whose label
(`for="school"`) precedes and contains its input (`id="school"`,
`name="school"`), the usual authoring order. -/
def sSubtree : List DElem :=
  [ { depth := 0, tag := "div", nameAttr := none, idAttr := none,
      forAttr := none, dataName := none, other := [("class", "field-group")] },
    { depth := 1, tag := "label", nameAttr := none, idAttr := none,
      forAttr := some "school", dataName := none, other := [] },
    { depth := 2, tag := "input", nameAttr := some "school",
      idAttr := some "school", forAttr := none, dataName := none, other := [] } ]

/-- A concrete subscriber table: two listeners on `"x"`, the first of
which throws. -/
def sHandlerThrow : Handler := fun _ => .error "boom"

/-- A subscriber that succeeds. -/
def sHandlerOk : Handler := fun _ => .ok ()

/-- Table with a throwing listener followed by a normal one. -/
def sTable : Table := [("x", [sHandlerThrow, sHandlerOk])]

/-- Configuration with coinciding bounds `minFields = maxFields = 1`. -/
def sCfg11 : Config := { sCfgD with maxFields := 1, minFields := 1 }

/-- A live working field #1 (as left by the template conversion). -/
def sF1 : FG :=
  { uid := 0, fgAttr := some "1", gName := none, displayNone := false,
    hasReq := false, reqEmpty := false }

/-- An untagged remove button. -/
def sRemBtn : Btn :=
  { uid := 12, isAddMarker := false, isRemoveMarker := true, gName := none,
    disabled := false, hasDisabledClass := false, ariaDisabled := none,
    display := "", dfBound := false }

/-- Page with one live field, the hidden template off the container, an add
button and a remove button. -/
def sW11 : World :=
  { fields := [sF1], offTree := [{ sTempl with uid := 5, displayNone := true }],
    btns := [sAddBtn, sRemBtn], nextUid := 6 }

/-- Active instance at both bounds (`minFields = maxFields = 1`, one live
own field) with both controls located. -/
def sI11 : Inst :=
  { sInst sCfg11 with isInitialized := true, src := .ref 5, removeRef := some 12 }

/-- Page with the template plus both controls, for the button-state
scenario. -/
def sW1R : World :=
  { fields := [sTempl], offTree := [], btns := [sAddBtn, sRemBtn], nextUid := 1 }

/-- Page whose fields container is empty: the template lives outside the
container. -/
def sWempty : World :=
  { fields := [], offTree := [sTempl], btns := [sAddBtn], nextUid := 1 }

/-- Freshly constructed default instance on `sW1R` with both controls
located. -/
def sInstR : Inst := { sInst sCfgD with removeRef := some 12 }

/-- The two-control page after `init` (the template converts to field #1). -/
def sR : Inst × World := runInit (sInstR, sW1R)

/-- The two-control page after `init` and one `addField`. -/
def sRadd : Inst × World := runAdd sR

/-- The two-control page after `init`, `addField`, `removeField`. -/
def sRrem : Inst × World := runRemoveLast sRadd

/-- A template tagged `"crew"`, for the fully-tagged two-instance page. -/
def sTemplC : FG :=
  { uid := 30, fgAttr := some "", gName := some "crew", displayNone := false,
    hasReq := false, reqEmpty := false }

/-- A second live `"work"` field group. -/
def sTemplW2 : FG := { sTemplW with uid := 21, fgAttr := some "2" }

/-- An add button tagged `"crew"`. -/
def sAddBtnC : Btn := { sAddBtn with uid := 13, gName := some "crew" }

/-- A fully-tagged page: one `"crew"` field group and two `"work"` field
groups, with one add button per instance. -/
def sW3 : World :=
  { fields := [sTemplC, sTemplW, sTemplW2], offTree := [],
    btns := [sAddBtnC, sAddBtnW], nextUid := 31 }

/-- Instance A of the fully-tagged page: `groupName = "crew"`. -/
def sInstC5A : Inst :=
  { cfg := { sCfgD with groupName := "crew" }, instanceId := "iA5",
    fieldCounter := 0, isInitialized := true, containerResolved := true,
    src := .ref 30, addRef := some 13, removeRef := none, events := [] }

/-- Instance B of the fully-tagged page: `groupName = "work"`. -/
def sInstC5B : Inst :=
  { cfg := { sCfgD with groupName := "work" }, instanceId := "iB5",
    fieldCounter := 0, isInitialized := true, containerResolved := true,
    src := .ref 20, addRef := some 11, removeRef := none, events := [] }

/-- The fully-tagged page after instance B added one field. -/
def sC5add : Inst × World := runAdd (sInstC5B, sW3)

/-- The fully-tagged page after instance B removed its last field. -/
def sC5rem : Inst × World := runRemoveLast (sInstC5B, sW3)

/-! ## Lemmas about the insertion position and list primitives -/

theorem mem_insertAfterLastOwn {g : String} {nf x : FG} :
    ∀ {l : List FG}, x ∈ insertAfterLastOwn g nf l → x = nf ∨ x ∈ l := by
  intro l
  induction l with
  | nil =>
    intro h
    exact Or.inl (by simpa [insertAfterLastOwn] using h)
  | cons f rest ih =>
    intro h
    simp only [insertAfterLastOwn] at h
    split at h
    · rcases List.mem_cons.mp h with h1 | h1
      · exact Or.inr (List.mem_cons.mpr (Or.inl h1))
      · rcases List.mem_cons.mp h1 with h2 | h2
        · exact Or.inl h2
        · exact Or.inr (List.mem_cons.mpr (Or.inr h2))
    · rcases List.mem_cons.mp h with h1 | h1
      · exact Or.inr (List.mem_cons.mpr (Or.inl h1))
      · rcases ih h1 with h2 | h2
        · exact Or.inl h2
        · exact Or.inr (List.mem_cons.mpr (Or.inr h2))

theorem filter_insertAfterLastOwn_own {g : String} {nf : FG}
    (hnf : isOwn g nf = true) :
    ∀ l : List FG,
      (insertAfterLastOwn g nf l).filter (isOwn g) = l.filter (isOwn g) ++ [nf] := by
  intro l
  induction l with
  | nil => simp [insertAfterLastOwn, hnf]
  | cons f rest ih =>
    simp only [insertAfterLastOwn]
    split
    · rename_i hcond
      have hf : isOwn g f = true := (Bool.and_eq_true _ _).mp hcond |>.1
      have hrest : rest.any (isOwn g) = false := by
        have := (Bool.and_eq_true _ _).mp hcond |>.2
        cases hr : rest.any (isOwn g) with
        | false => rfl
        | true => rw [hr] at this; simp at this
      have hfil : rest.filter (isOwn g) = [] := by
        rw [List.filter_eq_nil_iff]
        intro a ha
        have := List.any_eq_false.mp hrest a ha
        simpa using this
      simp [List.filter, hf, hnf, hfil]
    · cases hf : isOwn g f with
      | true => simp [List.filter, hf, ih]
      | false => simp [List.filter, hf, ih]

theorem filter_insertAfterLastOwn_not {p : FG → Bool} {g : String} {nf : FG}
    (hnf : p nf = false) :
    ∀ l : List FG, (insertAfterLastOwn g nf l).filter p = l.filter p := by
  intro l
  induction l with
  | nil => simp [insertAfterLastOwn, hnf]
  | cons f rest ih =>
    simp only [insertAfterLastOwn]
    split
    · cases hf : p f with
      | true => simp [List.filter, hf, hnf]
      | false => simp [List.filter, hf, hnf]
    · cases hf : p f with
      | true => simp [List.filter, hf, ih]
      | false => simp [List.filter, hf, ih]

theorem find?_insertAfterLastOwn_not {p : FG → Bool} {g : String} {nf : FG}
    (hnf : p nf = false) :
    ∀ l : List FG, (insertAfterLastOwn g nf l).find? p = l.find? p := by
  intro l
  induction l with
  | nil => simp [insertAfterLastOwn, List.find?, hnf]
  | cons f rest ih =>
    simp only [insertAfterLastOwn]
    split
    · cases hf : p f with
      | true => simp [List.find?, hf, hnf]
      | false => simp [List.find?, hf, hnf]
    · cases hf : p f with
      | true => simp [List.find?, hf]
      | false => simp [List.find?, hf, ih]

theorem find?_insertAfterLastOwn_self {g : String} {nf : FG} :
    ∀ l : List FG, (∀ f ∈ l, (f.uid == nf.uid) = false) →
      (insertAfterLastOwn g nf l).find? (fun f => f.uid == nf.uid) = some nf := by
  intro l
  induction l with
  | nil => intro _; simp [insertAfterLastOwn, List.find?]
  | cons f rest ih =>
    intro hall
    have hf : (f.uid == nf.uid) = false := hall f (by simp)
    simp only [insertAfterLastOwn]
    split
    · simp [List.find?, hf]
    · simp only [List.find?, hf]
      exact ih (fun x hx => hall x (by simp [hx]))

theorem eraseP_insertAfterLastOwn {g : String} {nf : FG} :
    ∀ l : List FG, (∀ f ∈ l, (f.uid == nf.uid) = false) →
      (insertAfterLastOwn g nf l).eraseP (fun f => f.uid == nf.uid) = l := by
  intro l
  induction l with
  | nil => intro _; simp [insertAfterLastOwn]
  | cons f rest ih =>
    intro hall
    have hf : (f.uid == nf.uid) = false := hall f (by simp)
    simp only [insertAfterLastOwn]
    split
    · simp [List.eraseP_cons, hf]
    · have hih := ih (fun x hx => hall x (by simp [hx]))
      simp [List.eraseP_cons, hf, hih]

theorem filter_eraseP_of_imp {p q : FG → Bool} :
    ∀ l : List FG, (∀ f ∈ l, q f = true → p f = false) →
      (l.eraseP q).filter p = l.filter p := by
  intro l
  induction l with
  | nil => intro _; simp
  | cons f rest ih =>
    intro hall
    cases hq : q f with
    | true =>
      have hp : p f = false := hall f (by simp) hq
      simp [List.eraseP_cons, hq, List.filter, hp]
    | false =>
      cases hp : p f with
      | true =>
        simp [List.eraseP_cons, hq, List.filter, hp,
              ih (fun x hx h => hall x (by simp [hx]) h)]
      | false =>
        simp [List.eraseP_cons, hq, List.filter, hp,
              ih (fun x hx h => hall x (by simp [hx]) h)]

theorem find?_map_of_pred {α : Type} (gf : α → α) (p : α → Bool)
    (hp : ∀ x, p (gf x) = p x) :
    ∀ l : List α, (l.map gf).find? p = (l.find? p).map gf := by
  intro l
  induction l with
  | nil => simp
  | cons a rest ih =>
    cases ha : p a with
    | true => simp [List.find?, hp, ha]
    | false => simp [List.find?, hp, ha, ih]

theorem filter_length_map_of_pred {α : Type} (gf : α → α) (p : α → Bool)
    (hp : ∀ x, p (gf x) = p x) :
    ∀ l : List α, ((l.map gf).filter p).length = (l.filter p).length := by
  intro l
  induction l with
  | nil => simp
  | cons a rest ih =>
    cases ha : p a with
    | true => simp [List.filter, hp, ha, ih]
    | false => simp [List.filter, hp, ha, ih]

theorem uid_unique_of_pairwise :
    ∀ l : List FG, l.Pairwise (fun a b => a.uid ≠ b.uid) →
      ∀ f ∈ l, ∀ f' ∈ l, f.uid = f'.uid → f = f' := by
  intro l
  induction l with
  | nil => intro _ f hf; simp at hf
  | cons a rest ih =>
    intro hpw f hf f' hf' huid
    have hpw' := List.pairwise_cons.mp hpw
    rcases List.mem_cons.mp hf with h1 | h1
    · rcases List.mem_cons.mp hf' with h2 | h2
      · rw [h1, h2]
      · exact absurd (h1 ▸ huid) (hpw'.1 f' h2)
    · rcases List.mem_cons.mp hf' with h2 | h2
      · exact absurd (h2 ▸ huid.symm) (hpw'.1 f h1)
      · exact ih hpw'.2 f h1 f' h2 huid

/-! ## World preservation lemmas -/

theorem updBtn_fields (w : World) (u : Nat) (f : Btn → Btn) :
    (updBtn w u f).fields = w.fields := rfl

theorem updBtn_offTree (w : World) (u : Nat) (f : Btn → Btn) :
    (updBtn w u f).offTree = w.offTree := rfl

theorem updBtn_nextUid (w : World) (u : Nat) (f : Btn → Btn) :
    (updBtn w u f).nextUid = w.nextUid := rfl

theorem updElem_btns (w : World) (u : Nat) (f : FG → FG) :
    (updElem w u f).btns = w.btns := rfl

theorem updateButtonStates_fields (inst : Inst) (w : World) :
    (updateButtonStates inst w).1.fields = w.fields := by
  unfold updateButtonStates
  cases inst.addRef <;> cases inst.removeRef <;> dsimp only <;>
    first
      | rfl
      | (split <;> rfl)

theorem updateButtonStates_offTree (inst : Inst) (w : World) :
    (updateButtonStates inst w).1.offTree = w.offTree := by
  unfold updateButtonStates
  cases inst.addRef <;> cases inst.removeRef <;> dsimp only <;>
    first
      | rfl
      | (split <;> rfl)

theorem updateButtonStates_nextUid (inst : Inst) (w : World) :
    (updateButtonStates inst w).1.nextUid = w.nextUid := by
  unfold updateButtonStates
  cases inst.addRef <;> cases inst.removeRef <;> dsimp only <;>
    first
      | rfl
      | (split <;> rfl)

theorem bindEvents_fields (inst : Inst) (w : World) :
    (bindEvents inst w).fields = w.fields := by
  unfold bindEvents
  cases inst.addRef with
  | none => rfl
  | some ua =>
    dsimp only
    cases btnAt w ua with
    | none => rfl
    | some ab =>
      dsimp only
      split
      · rfl
      · cases inst.removeRef with
        | none => rfl
        | some ur =>
          dsimp only
          cases btnAt (updBtn w ua fun b => { b with dfBound := true }) ur with
          | none => rfl
          | some rb =>
            dsimp only
            split <;> rfl

theorem bindEvents_offTree (inst : Inst) (w : World) :
    (bindEvents inst w).offTree = w.offTree := by
  unfold bindEvents
  cases inst.addRef with
  | none => rfl
  | some ua =>
    dsimp only
    cases btnAt w ua with
    | none => rfl
    | some ab =>
      dsimp only
      split
      · rfl
      · cases inst.removeRef with
        | none => rfl
        | some ur =>
          dsimp only
          cases btnAt (updBtn w ua fun b => { b with dfBound := true }) ur with
          | none => rfl
          | some rb =>
            dsimp only
            split <;> rfl

theorem bindEvents_nextUid (inst : Inst) (w : World) :
    (bindEvents inst w).nextUid = w.nextUid := by
  unfold bindEvents
  cases inst.addRef with
  | none => rfl
  | some ua =>
    dsimp only
    cases btnAt w ua with
    | none => rfl
    | some ab =>
      dsimp only
      split
      · rfl
      · cases inst.removeRef with
        | none => rfl
        | some ur =>
          dsimp only
          cases btnAt (updBtn w ua fun b => { b with dfBound := true }) ur with
          | none => rfl
          | some rb =>
            dsimp only
            split <;> rfl

/-! ## Count and lookup stability lemmas -/

theorem countFor_updElem (g : String) (w : World) (u : Nat) (f : FG → FG)
    (hf : ∀ x, (f x).fgAttr = x.fgAttr ∧ (f x).gName = x.gName) :
    countFor g (updElem w u f) = countFor g w := by
  unfold countFor updElem
  dsimp only
  apply filter_length_map_of_pred
  intro x
  by_cases hx : (x.uid == u) = true
  · simp [hx, isOwn, (hf x).1, (hf x).2]
  · simp [hx]

theorem lookupElem_updElem (w : World) (u v : Nat) (f : FG → FG)
    (hf : ∀ x, (f x).uid = x.uid) :
    lookupElem (updElem w u f) v =
      (lookupElem w v).map (fun e => if e.uid == u then f e else e) := by
  unfold lookupElem updElem
  dsimp only
  rw [← List.map_append]
  apply find?_map_of_pred
  intro x
  by_cases hx : (x.uid == u) = true
  · simp [hx, hf x]
  · simp [hx]

theorem lookupElem_insertField (w : World) (g : String) (nf : FG) (v : Nat)
    (hv : (nf.uid == v) = false) :
    lookupElem { w with fields := insertAfterLastOwn g nf w.fields } v =
      lookupElem w v := by
  unfold lookupElem
  dsimp only
  rw [List.find?_append, List.find?_append,
      find?_insertAfterLastOwn_not (p := fun f => f.uid == v) hv]

/-! ## Button lookup lemmas -/

theorem btnAt_updBtn_self (w : World) (u : Nat) (f : Btn → Btn)
    (hf : ∀ b, (f b).uid = b.uid) :
    btnAt (updBtn w u f) u = (btnAt w u).map f := by
  unfold btnAt updBtn
  dsimp only
  rw [find?_map_of_pred (fun b => if b.uid == u then f b else b)
        (fun b => b.uid == u)
        (by intro x; by_cases hx : (x.uid == u) = true <;> simp [hx, hf])]
  cases hb : w.btns.find? (fun b => b.uid == u) with
  | none => rfl
  | some b =>
    have heq : b.uid = u := by
      have := List.find?_some hb
      simpa using this
    simp [heq]

theorem btnAt_updBtn_ne (w : World) (u v : Nat) (hne : u ≠ v) (f : Btn → Btn)
    (hf : ∀ b, (f b).uid = b.uid) :
    btnAt (updBtn w v f) u = btnAt w u := by
  unfold btnAt updBtn
  dsimp only
  rw [find?_map_of_pred (fun b => if b.uid == v then f b else b)
        (fun b => b.uid == u)
        (by intro x; by_cases hx : (x.uid == v) = true <;> simp [hx, hf])]
  cases hb : w.btns.find? (fun b => b.uid == u) with
  | none => rfl
  | some b =>
    have heq : b.uid = u := by
      have := List.find?_some hb
      simpa using this
    have hbv : (b.uid == v) = false := by simp [heq, hne]
    simp [hbv]
    intro hc
    exact absurd (heq ▸ hc) hne

/-! ## Button synchronization lemmas -/

theorem updateButtonState_uid (b : Btn) (d : Bool) :
    (updateButtonState b d).uid = b.uid := by
  unfold updateButtonState; split <;> rfl

theorem updateButtonState_spec (b : Btn) (d : Bool) :
    (updateButtonState b d).disabled = d ∧
    (updateButtonState b d).hasDisabledClass = d ∧
    (updateButtonState b d).ariaDisabled = some (if d then "true" else "false") := by
  cases d <;> simp [updateButtonState]

theorem btnAt_updateButtonStates_addRef (inst : Inst) (w : World) (ua : Nat)
    (ha : inst.addRef = some ua)
    (hd : ∀ ur, inst.removeRef = some ur → ur ≠ ua) :
    btnAt (updateButtonStates inst w).1 ua =
      (btnAt w ua).map (fun b =>
        updateButtonState b
          (decide ((getOwnFieldGroups inst w).length ≥ inst.cfg.maxFields))) := by
  unfold updateButtonStates
  rw [ha]
  dsimp only
  cases hr : inst.removeRef with
  | none =>
    dsimp only
    exact btnAt_updBtn_self w ua _ (fun b => updateButtonState_uid b _)
  | some ur =>
    dsimp only
    have hne : ua ≠ ur := fun h => (hd ur hr) h.symm
    split
    · refine Eq.trans (btnAt_updBtn_ne _ ua ur hne _ ?_) ?_
      · intro b; rfl
      refine Eq.trans (btnAt_updBtn_ne _ ua ur hne _ ?_) ?_
      · intro b; exact updateButtonState_uid b _
      exact btnAt_updBtn_self w ua _ (fun b => updateButtonState_uid b _)
    · refine Eq.trans (btnAt_updBtn_ne _ ua ur hne _ ?_) ?_
      · intro b; exact updateButtonState_uid b _
      exact btnAt_updBtn_self w ua _ (fun b => updateButtonState_uid b _)

theorem btnAt_updateButtonStates_removeRef (inst : Inst) (w : World) (ur : Nat)
    (hr : inst.removeRef = some ur)
    (hd : ∀ ua, inst.addRef = some ua → ua ≠ ur) :
    btnAt (updateButtonStates inst w).1 ur =
      (btnAt w ur).map (fun b =>
        let rb := updateButtonState b
          (decide ((getOwnFieldGroups inst w).length ≤ inst.cfg.minFields))
        if inst.cfg.hideRemoveButtonWhenMinReached then
          { rb with display :=
              if decide ((getOwnFieldGroups inst w).length ≤ inst.cfg.minFields)
              then "none" else "" }
        else rb) := by
  unfold updateButtonStates
  rw [hr]
  dsimp only
  have hbase :
      btnAt (match inst.addRef with
             | some u => updBtn w u (fun b => updateButtonState b
                 (decide ((getOwnFieldGroups inst w).length ≥ inst.cfg.maxFields)))
             | none => w) ur = btnAt w ur := by
    cases hau : inst.addRef with
    | none => rfl
    | some ua =>
      exact btnAt_updBtn_ne _ ur ua (fun h => (hd ua hau) h.symm) _
        (fun b => updateButtonState_uid b _)
  split
  · refine Eq.trans (btnAt_updBtn_self _ ur _ ?_) ?_
    · intro b; rfl
    rw [btnAt_updBtn_self _ ur _ (fun b => updateButtonState_uid b _), hbase,
        Option.map_map]
    rfl
  · rw [btnAt_updBtn_self _ ur _ (fun b => updateButtonState_uid b _), hbase]

theorem btnAt_updateButtonStates_other (inst : Inst) (w : World) (u : Nat)
    (ha : inst.addRef ≠ some u) (hr : inst.removeRef ≠ some u) :
    btnAt (updateButtonStates inst w).1 u = btnAt w u := by
  unfold updateButtonStates
  dsimp only
  cases hau : inst.addRef with
  | none =>
    cases hru : inst.removeRef with
    | none => rfl
    | some ur =>
      have hne : u ≠ ur := fun h => hr (h ▸ hru)
      dsimp only
      split
      · refine Eq.trans (btnAt_updBtn_ne _ u ur hne _ ?_) ?_
        · intro b; rfl
        exact btnAt_updBtn_ne _ u ur hne _ (fun b => updateButtonState_uid b _)
      · exact btnAt_updBtn_ne _ u ur hne _ (fun b => updateButtonState_uid b _)
  | some ua =>
    have hnea : u ≠ ua := fun h => ha (h ▸ hau)
    cases hru : inst.removeRef with
    | none =>
      dsimp only
      exact btnAt_updBtn_ne _ u ua hnea _ (fun b => updateButtonState_uid b _)
    | some ur =>
      have hne : u ≠ ur := fun h => hr (h ▸ hru)
      dsimp only
      split
      · refine Eq.trans (btnAt_updBtn_ne _ u ur hne _ ?_) ?_
        · intro b; rfl
        refine Eq.trans (btnAt_updBtn_ne _ u ur hne _ ?_) ?_
        · intro b; exact updateButtonState_uid b _
        exact btnAt_updBtn_ne _ u ua hnea _ (fun b => updateButtonState_uid b _)
      · refine Eq.trans (btnAt_updBtn_ne _ u ur hne _ ?_) ?_
        · intro b; exact updateButtonState_uid b _
        exact btnAt_updBtn_ne _ u ua hnea _ (fun b => updateButtonState_uid b _)

theorem btnSyncOk_updateButtonStates (inst : Inst) (w : World)
    (hd : ∀ ua ur, inst.addRef = some ua → inst.removeRef = some ur → ua ≠ ur) :
    btnSyncOk inst (updateButtonStates inst w).1 = true := by
  have hcnt : (getOwnFieldGroups inst (updateButtonStates inst w).1).length
      = (getOwnFieldGroups inst w).length := by
    unfold getOwnFieldGroups
    rw [updateButtonStates_fields]
  unfold btnSyncOk
  dsimp only
  rw [hcnt, Bool.and_eq_true]
  constructor
  · cases ha : inst.addRef with
    | none => rfl
    | some ua =>
      dsimp only
      rw [btnAt_updateButtonStates_addRef inst w ua ha
            (fun ur hru => Ne.symm (hd ua ur ha hru))]
      cases hb : btnAt w ua with
      | none => rfl
      | some b =>
        dsimp only [Option.map]
        rcases updateButtonState_spec b
          (decide ((getOwnFieldGroups inst w).length ≥ inst.cfg.maxFields)) with
          ⟨h1, h2, h3⟩
        simp [h1, h2, h3]
  · cases hrr : inst.removeRef with
    | none => rfl
    | some ur =>
      dsimp only
      rw [btnAt_updateButtonStates_removeRef inst w ur hrr
            (fun ua hau => hd ua ur hau hrr)]
      cases hb : btnAt w ur with
      | none => rfl
      | some b =>
        dsimp only [Option.map]
        rcases updateButtonState_spec b
          (decide ((getOwnFieldGroups inst w).length ≤ inst.cfg.minFields)) with
          ⟨h1, h2, h3⟩
        cases hh : inst.cfg.hideRemoveButtonWhenMinReached with
        | false => simp [hh, h1, h2, h3]
        | true => simp [hh, h1, h2, h3]

/-! ## Event-table lemmas -/

theorem tblGet_map_set (n : String) (hs : List Handler) :
    ∀ t : Table, t.any (fun p => p.1 == n) = true →
      tblGet (t.map (fun p => if p.1 == n then (p.1, hs) else p)) n = some hs := by
  intro t
  induction t with
  | nil => intro h; simp at h
  | cons p rest ih =>
    intro hany
    cases hp : (p.1 == n) with
    | true =>
      unfold tblGet
      simp only [List.map_cons, hp, if_true]
      rw [List.find?_cons_of_pos _ (by simpa using hp)]
      rfl
    | false =>
      have hany' : rest.any (fun p => p.1 == n) = true := by
        rcases List.any_eq_true.mp hany with ⟨x, hx, hxn⟩
        rcases List.mem_cons.mp hx with h1 | h1
        · exfalso; rw [h1, hp] at hxn; cases hxn
        · exact List.any_eq_true.mpr ⟨x, h1, hxn⟩
      have := ih hany'
      unfold tblGet at this ⊢
      simp only [List.map_cons, hp, if_false]
      rw [List.find?_cons_of_neg _ (by simp [hp])]
      exact this

theorem tblGet_append_new (n : String) (hs : List Handler) :
    ∀ t : Table, t.any (fun p => p.1 == n) = false →
      tblGet (t ++ [(n, hs)]) n = some hs := by
  intro t hany
  unfold tblGet
  rw [List.find?_append]
  have hnone : t.find? (fun p => p.1 == n) = none := by
    rw [List.find?_eq_none]
    intro x hx
    have := List.any_eq_false.mp hany x hx
    simpa using this
  rw [hnone]
  simp [List.find?]

theorem tblGet_onEv_self (t : Table) (n : String) (h : Handler) :
    tblGet (onEv t n h) n = some ((tblGet t n).getD [] ++ [h]) := by
  unfold onEv
  dsimp only
  by_cases hany : t.any (fun p => p.1 == n) = true
  · rw [if_pos hany]
    exact tblGet_map_set n _ t hany
  · rw [if_neg hany]
    refine tblGet_append_new n _ t ?_
    cases h : t.any (fun p => p.1 == n) with
    | false => rfl
    | true => exact absurd h hany

/-- Reduction of the `Except` monad bind on a success value. -/
theorem bind_ok_df {α β : Type} (a : α) (f : α → Except String β) :
    (Except.ok a : Except String α) >>= f = f a := rfl

/-! ## Claim theorems -/

/-- Claim C9: for every event name and payload, `emit` invokes exactly the
subscribers registered for that name, in registration order, passing
`{type: name, ...payload}`; when any subscriber throws, the failure is
only logged, every later subscriber still runs, and the failure never
propagates to the caller of the triggering operation.  Stated as: (i) the
k-th invocation of `emit` is the k-th registered subscriber applied to the
constructed payload — independently of whether other subscribers throw, a
throwing subscriber merely yields a logged outcome; (ii) `emit` performs
exactly as many invocations as there are registered subscribers (`emit`
itself is total: no outcome is ever an uncaught fault); (iii) a subscriber
registered with `on` is invoked after all previously registered ones. -/
theorem C9_emit :
    (∀ (t : Table) (n : String) (d : Obj) (k : Nat) (h : Handler),
        ((tblGet t n).getD []).get? k = some h →
        (emitLog t n d).get? k = some (runHandler h (mkEventObj n d))) ∧
    (∀ (t : Table) (n : String) (d : Obj),
        (emitLog t n d).length = ((tblGet t n).getD []).length) ∧
    (∀ (t : Table) (n : String) (h : Handler) (d : Obj),
        emitLog (onEv t n h) n d =
          emitLog t n d ++ [runHandler h (mkEventObj n d)]) := by
  refine ⟨?_, ?_, ?_⟩
  · intro t n d k h hk
    unfold emitLog
    cases ht : tblGet t n with
    | none => rw [ht] at hk; simp at hk
    | some hs =>
      rw [ht] at hk
      simp only [Option.getD] at hk
      rw [List.get?_map, hk]
      rfl
  · intro t n d
    unfold emitLog
    cases ht : tblGet t n with
    | none => simp [ht]
    | some hs => simp [ht]
  · intro t n h d
    unfold emitLog
    rw [tblGet_onEv_self]
    cases ht : tblGet t n with
    | none => simp [ht]
    | some hs => simp [ht]

/-- Claim C9 witness: a table with a throwing subscriber followed by a
normal one on event `"x"`; the second subscriber is still invoked with the
payload `{type: "x", n: 1}` and the first one's failure is only logged. -/
theorem C9_witness :
    ((tblGet sTable "x").getD []).get? 1 = some sHandlerOk ∧
    (emitLog sTable "x" [("n", JVal.num 1)]).get? 1 =
      some (runHandler sHandlerOk (mkEventObj "x" [("n", JVal.num 1)])) ∧
    (emitLog sTable "x" [("n", JVal.num 1)]).length =
      ((tblGet sTable "x").getD []).length ∧
    emitLog sTable "x" [("n", JVal.num 1)] = [.logged "boom", .ran] :=
  ⟨rfl,
   C9_emit.1 sTable "x" [("n", JVal.num 1)] 1 sHandlerOk rfl,
   C9_emit.2.1 sTable "x" [("n", JVal.num 1)],
   rfl⟩

/-- Claim C10: a callback registered via `on("destroyed", fn)` is never
invoked, because `destroy()` empties the subscriber table before it emits
the `destroyed` event, so `emit` finds no subscribers; `destroy` always
completes and yields the instance itself (with the table emptied and the
initialization flag cleared), whatever subscribers were registered. -/
theorem C10_destroyed_never_invoked :
    ∀ (inst : Inst) (w : World),
      (destroy inst w).2.2 = [] ∧
      (destroy inst w).1.events = [] ∧
      (destroy inst w).1.isInitialized = false ∧
      (destroy inst w).1.instanceId = inst.instanceId ∧
      (destroy inst w).1.cfg = inst.cfg := by
  intro inst w
  exact ⟨rfl, rfl, rfl, rfl, rfl⟩

/-- Claim C2: on an active instance, `addField` at or above the maximum
returns the failure indicator (`false`, modelled `none`), emits
`maxFieldsReached` with the attempted and limit counts, and leaves the
instance and the page untouched; `removeField` and `removeSpecificField`
at or below the minimum return `false`, emit `minFieldsReached`, and
leave the instance and the page untouched. -/
theorem C2_limit_refusal :
    ∀ (inst : Inst) (w : World) (a : Bool) (u : Nat),
      inst.isInitialized = true →
      inst.containerResolved = true →
      (((getOwnFieldGroups inst w).length ≥ inst.cfg.maxFields →
          addField inst w a = .ok (inst, w, none,
            [.maxFieldsReached (getOwnFieldGroups inst w).length inst.cfg.maxFields])) ∧
       ((getOwnFieldGroups inst w).length ≤ inst.cfg.minFields →
          removeField inst w = .ok (inst, w, false,
            [.minFieldsReached (getOwnFieldGroups inst w).length inst.cfg.minFields])) ∧
       ((getOwnFieldGroups inst w).length ≤ inst.cfg.minFields →
          removeSpecificField inst w u = .ok (inst, w, false,
            [.minFieldsReached (getOwnFieldGroups inst w).length inst.cfg.minFields]))) := by
  intro inst w a u hinit hcr
  refine ⟨?_, ?_, ?_⟩
  · intro h
    unfold addField getCurrentFieldCountE
    rw [if_pos hcr]
    rw [bind_ok_df]
    rw [if_pos h]
    rfl
  · intro h
    unfold removeField
    rw [if_pos hcr, if_pos h]
  · intro h
    unfold removeSpecificField getCurrentFieldCountE
    rw [if_pos hcr]
    rw [bind_ok_df]
    rw [if_pos h]
    rfl

/-- Claim C2 witness: an active instance at both bounds
(`minFields = maxFields = 1`, one live field): `addField` refuses with
`maxFieldsReached 1 1`, `removeField` and `removeSpecificField` refuse
with `minFieldsReached 1 1`, all without touching the page. -/
theorem C2_witness :
    sI11.isInitialized = true ∧
    (getOwnFieldGroups sI11 sW11).length ≥ sI11.cfg.maxFields ∧
    (getOwnFieldGroups sI11 sW11).length ≤ sI11.cfg.minFields ∧
    addField sI11 sW11 true =
      .ok (sI11, sW11, none, [.maxFieldsReached 1 1]) ∧
    removeField sI11 sW11 =
      .ok (sI11, sW11, false, [.minFieldsReached 1 1]) ∧
    removeSpecificField sI11 sW11 0 =
      .ok (sI11, sW11, false, [.minFieldsReached 1 1]) :=
  ⟨rfl, by decide, by decide,
   (C2_limit_refusal sI11 sW11 true 0 rfl rfl).1 (by decide),
   (C2_limit_refusal sI11 sW11 true 0 rfl rfl).2.1 (by decide),
   (C2_limit_refusal sI11 sW11 true 0 rfl rfl).2.2 (by decide)⟩

/-! ## Characterization of a successful `addField` -/

theorem getOwn_length (i : Inst) (x : World) :
    (getOwnFieldGroups i x).length = countFor i.cfg.groupName x := rfl

theorem isOwn_cloneFG (inst : Inst) (el : FG) (u i : Nat) :
    isOwn inst.cfg.groupName (cloneFG inst el u i) = cloneOwnOf inst el := by
  unfold isOwn cloneFG cloneOwnOf cloneTagOf
  simp

theorem cloneFG_uid (inst : Inst) (el : FG) (u i : Nat) :
    (cloneFG inst el u i).uid = u := rfl

theorem addField_success (inst : Inst) (w : World) (a : Bool) (su : Nat) (el : FG)
    (hcr : inst.containerResolved = true)
    (hsrc : inst.src = .ref su)
    (hel : lookupElem w su = some el)
    (hval : inst.cfg.validateOnAdd = false)
    (hcnt : (getOwnFieldGroups inst w).length < inst.cfg.maxFields) :
    addField inst w a = .ok
      ({ inst with fieldCounter := inst.fieldCounter + 1 },
       (updateButtonStates { inst with fieldCounter := inst.fieldCounter + 1 }
          (afWorld inst w el)).1,
       some w.nextUid,
       (updateButtonStates { inst with fieldCounter := inst.fieldCounter + 1 }
          (afWorld inst w el)).2
         ++ [.fieldAdded w.nextUid (inst.fieldCounter + 1)
              (getOwnFieldGroups { inst with fieldCounter := inst.fieldCounter + 1 }
                (afWorld inst w el)).length]) := by
  unfold addField getCurrentFieldCountE
  rw [if_pos hcr, bind_ok_df,
      if_neg (by exact Nat.not_le.mpr hcnt)]
  rw [if_neg (by simp [hval])]
  unfold createNewFieldE
  dsimp only
  rw [hsrc]
  dsimp only
  rw [hel]
  rfl

theorem length_filter_insertAfterLastOwn_pos {p : FG → Bool} {g : String} {nf : FG}
    (hnf : p nf = true) :
    ∀ l : List FG,
      ((insertAfterLastOwn g nf l).filter p).length = (l.filter p).length + 1 := by
  intro l
  induction l with
  | nil => simp [insertAfterLastOwn, hnf]
  | cons f rest ih =>
    simp only [insertAfterLastOwn]
    split
    · cases hf : p f <;> simp [List.filter, hf, hnf]
    · cases hf : p f <;> simp [List.filter, hf, ih]

theorem countFor_afWorld (inst : Inst) (w : World) (el : FG) (g : String)
    (hown : isOwn g (cloneFG inst el w.nextUid (inst.fieldCounter + 1)) = true) :
    countFor g (afWorld inst w el) = countFor g w + 1 := by
  unfold countFor afWorld
  dsimp only
  rw [length_filter_insertAfterLastOwn_pos hown]

theorem countFor_afWorld_not (inst : Inst) (w : World) (el : FG) (g : String)
    (hown : isOwn g (cloneFG inst el w.nextUid (inst.fieldCounter + 1)) = false) :
    countFor g (afWorld inst w el) = countFor g w := by
  unfold countFor afWorld
  dsimp only
  rw [filter_insertAfterLastOwn_not hown]

theorem countFor_updateButtonStates (g : String) (i : Inst) (x : World) :
    countFor g (updateButtonStates i x).1 = countFor g x := by
  unfold countFor
  rw [updateButtonStates_fields]

theorem lookupElem_updateButtonStates (i : Inst) (x : World) (v : Nat) :
    lookupElem (updateButtonStates i x).1 v = lookupElem x v := by
  unfold lookupElem
  rw [updateButtonStates_fields, updateButtonStates_offTree]

theorem lookupElem_afWorld (inst : Inst) (w : World) (el : FG) (v : Nat)
    (hv : (w.nextUid == v) = false) :
    lookupElem (afWorld inst w el) v = lookupElem w v := by
  unfold lookupElem afWorld
  dsimp only
  rw [List.find?_append, List.find?_append,
      find?_insertAfterLastOwn_not (p := fun f => f.uid == v) hv]

theorem WFuids_afWorld (inst : Inst) (w : World) (el : FG)
    (hwf : WFuids w) : WFuids (afWorld inst w el) := by
  intro f hf
  unfold afWorld at hf
  dsimp only at hf
  rcases List.mem_append.mp hf with h1 | h1
  · rcases mem_insertAfterLastOwn h1 with h2 | h2
    · rw [h2]
      exact Nat.lt_succ_self w.nextUid
    · exact Nat.lt_succ_of_lt (hwf f (List.mem_append.mpr (Or.inl h2)))
  · exact Nat.lt_succ_of_lt (hwf f (List.mem_append.mpr (Or.inr h1)))

theorem WFuids_updateButtonStates (i : Inst) (x : World)
    (hwf : WFuids x) : WFuids (updateButtonStates i x).1 := by
  intro f hf
  rw [updateButtonStates_fields, updateButtonStates_offTree] at hf
  rw [updateButtonStates_nextUid]
  exact hwf f hf

theorem lookupElem_updBtn (w : World) (u : Nat) (f : Btn → Btn) (v : Nat) :
    lookupElem (updBtn w u f) v = lookupElem w v := rfl

theorem countFor_updBtn (g : String) (w : World) (u : Nat) (f : Btn → Btn) :
    countFor g (updBtn w u f) = countFor g w := rfl

theorem countFor_bindEvents (g : String) (i : Inst) (x : World) :
    countFor g (bindEvents i x) = countFor g x := by
  unfold countFor
  rw [bindEvents_fields]

theorem WFuids_updElem (w : World) (u : Nat) (f : FG → FG)
    (hf : ∀ x, (f x).uid = x.uid) (hwf : WFuids w) : WFuids (updElem w u f) := by
  intro x hx
  unfold updElem at hx
  dsimp only at hx
  rw [← List.map_append] at hx
  rcases List.mem_map.mp hx with ⟨y, hy, hyx⟩
  have : x.uid = y.uid := by
    rw [← hyx]
    by_cases h : (y.uid == u) = true
    · simp only [h, if_true]; exact hf y
    · simp [h]
  rw [this]
  exact hwf y hy

/-! ## The `createMinimumFields` loop -/

theorem createMinimumFieldsAux_spec :
    ∀ (n : Nat) (inst : Inst) (w : World) (su : Nat) (el : FG),
      inst.containerResolved = true →
      inst.src = .ref su →
      lookupElem w su = some el →
      inst.cfg.validateOnAdd = false →
      cloneOwnOf inst el = true →
      WFuids w →
      countFor inst.cfg.groupName w + n ≤ inst.cfg.maxFields →
      ∃ (inst' : Inst) (w' : World) (tr : List EvData),
        createMinimumFieldsAux inst w n = .ok (inst', w', tr) ∧
        inst'.cfg = inst.cfg ∧
        countFor inst'.cfg.groupName w' = countFor inst.cfg.groupName w + n := by
  intro n
  induction n with
  | zero =>
    intro inst w su el hcr hsrc hel hval hown hwf hbound
    exact ⟨inst, w, [], rfl, rfl, rfl⟩
  | succ n ih =>
    intro inst w su el hcr hsrc hel hval hown hwf hbound
    have hcnt : (getOwnFieldGroups inst w).length < inst.cfg.maxFields := by
      rw [getOwn_length]; omega
    have hadd := addField_success inst w false su el hcr hsrc hel hval hcnt
    have hel0 : (w.fields ++ w.offTree).find? (fun f => f.uid == su) = some el := hel
    have helu : el.uid = su := by
      have h := List.find?_some hel0
      simpa using h
    have hmem : el ∈ w.fields ++ w.offTree := List.mem_of_find?_eq_some hel0
    have hsu_lt : su < w.nextUid := helu ▸ hwf el hmem
    have hne : (w.nextUid == su) = false := by
      simp only [beq_eq_false_iff_ne, ne_eq]
      omega
    have hel2 : lookupElem
        (updateButtonStates { inst with fieldCounter := inst.fieldCounter + 1 }
          (afWorld inst w el)).1 su = some el := by
      rw [lookupElem_updateButtonStates, lookupElem_afWorld inst w el su hne, hel]
    have hwf2 : WFuids (updateButtonStates
        { inst with fieldCounter := inst.fieldCounter + 1 } (afWorld inst w el)).1 :=
      WFuids_updateButtonStates _ _ (WFuids_afWorld _ _ _ hwf)
    have hcnt2 : countFor inst.cfg.groupName
        (updateButtonStates { inst with fieldCounter := inst.fieldCounter + 1 }
          (afWorld inst w el)).1 = countFor inst.cfg.groupName w + 1 := by
      rw [countFor_updateButtonStates]
      exact countFor_afWorld inst w el _ (by rw [isOwn_cloneFG]; exact hown)
    have hbound2 : countFor inst.cfg.groupName
        (updateButtonStates { inst with fieldCounter := inst.fieldCounter + 1 }
          (afWorld inst w el)).1 + n ≤ inst.cfg.maxFields := by
      rw [hcnt2]; omega
    rcases ih { inst with fieldCounter := inst.fieldCounter + 1 }
        (updateButtonStates { inst with fieldCounter := inst.fieldCounter + 1 }
          (afWorld inst w el)).1 su el hcr hsrc hel2 hval hown hwf2 hbound2 with
      ⟨inst', w', tr', heq, hcfg, hcnt'⟩
    obtain ⟨trAll, hfinal⟩ :
        ∃ trA, createMinimumFieldsAux inst w (n + 1) = .ok (inst', w', trA) := by
      unfold createMinimumFieldsAux
      rw [hadd, bind_ok_df]
      dsimp only
      rw [heq, bind_ok_df]
      exact ⟨_, rfl⟩
    refine ⟨inst', w', trAll, hfinal, hcfg, ?_⟩
    rw [hcnt', hcnt2]
    omega

/-! ## Initialization with no live own field -/

theorem countFor_hideSourceField (g : String) (i : Inst) (x : World) :
    countFor g (hideSourceField i x) = countFor g x := by
  unfold hideSourceField
  cases i.src with
  | unresolved => rfl
  | ref suid =>
    refine countFor_updElem g x suid _ ?_
    exact fun e => ⟨rfl, rfl⟩

theorem lookupElem_hideSourceField (i : Inst) (x : World) (su v : Nat)
    (hsrc : i.src = .ref su) :
    lookupElem (hideSourceField i x) v =
      (lookupElem x v).map
        (fun e => if e.uid == su then { e with displayNone := true } else e) := by
  unfold hideSourceField
  rw [hsrc]
  refine lookupElem_updElem x su v _ ?_
  exact fun e => rfl

theorem WFuids_hideSourceField (i : Inst) (x : World) (hwf : WFuids x) :
    WFuids (hideSourceField i x) := by
  unfold hideSourceField
  cases i.src with
  | unresolved => exact hwf
  | ref suid =>
    refine WFuids_updElem x suid _ ?_ hwf
    exact fun e => rfl

theorem setupInitialState_zero (inst : Inst) (w : World) (su : Nat) (el : FG)
    (hcr : inst.containerResolved = true)
    (hsrc : inst.src = .ref su)
    (hel : lookupElem w su = some el)
    (hwf : WFuids w)
    (hzero : countFor inst.cfg.groupName w = 0) :
    ∃ w2, setupInitialState inst w =
        createMinimumFields { inst with fieldCounter := 0 } w2 ∧
      countFor inst.cfg.groupName w2 = 0 ∧
      lookupElem w2 su = some { el with displayNone := true } ∧
      WFuids w2 := by
  have hel0 : (w.fields ++ w.offTree).find? (fun f => f.uid == su) = some el := hel
  have helu : el.uid = su := by
    have h := List.find?_some hel0
    simpa using h
  have hcc : getCurrentFieldCountE inst w = .ok 0 := by
    unfold getCurrentFieldCountE
    rw [if_pos hcr, getOwn_length, hzero]
  have hsrc1 : ({ inst with fieldCounter := 0 } : Inst).src = SrcLoc.ref su := hsrc
  have key : ∀ (w1 : World), w1.fields = w.fields → w1.offTree = w.offTree →
      w1.nextUid = w.nextUid →
      countFor inst.cfg.groupName
        (hideSourceField { inst with fieldCounter := 0 } w1) = 0 ∧
      lookupElem (hideSourceField { inst with fieldCounter := 0 } w1) su
        = some { el with displayNone := true } ∧
      WFuids (hideSourceField { inst with fieldCounter := 0 } w1) := by
    intro w1 hf ho hn
    have hc : countFor inst.cfg.groupName w1 = countFor inst.cfg.groupName w := by
      unfold countFor; rw [hf]
    have hl : lookupElem w1 su = lookupElem w su := by
      unfold lookupElem; rw [hf, ho]
    have hwf1 : WFuids w1 := by
      intro f hfm
      rw [hf, ho] at hfm
      rw [hn]
      exact hwf f hfm
    refine ⟨?_, ?_, ?_⟩
    · rw [countFor_hideSourceField, hc]; exact hzero
    · rw [lookupElem_hideSourceField _ _ su su hsrc1, hl, hel]
      simp [helu]
    · exact WFuids_hideSourceField _ _ hwf1
  unfold setupInitialState
  rw [hcc, bind_ok_df]
  dsimp only
  rw [if_neg (by simp), if_pos (by simp)]
  refine ⟨_, rfl, ?_, ?_, ?_⟩
  · refine (key _ ?_ ?_ ?_).1 <;>
      (split
       · split
         · rfl
         · rfl
       · rfl)
  · refine (key _ ?_ ?_ ?_).2.1 <;>
      (split
       · split
         · rfl
         · rfl
       · rfl)
  · refine (key _ ?_ ?_ ?_).2.2 <;>
      (split
       · split
         · rfl
         · rfl
       · rfl)

/-- Claim C1 (as corrected): when setup resolves on a page whose fields
container holds no live own field (the template coexists with zero live
fields), the bounds are valid, validation-on-add is off and the template's
clone belongs to the instance, `initialize()` completes and synthesizes
exactly `minFields` fresh fields, so `minFields ≤ getFieldCount() ≤
maxFields` holds.  (The sole-template conversion case, by contrast, ends
with exactly one live field whatever `minFields` says — see the
counterexample.) -/
theorem C1_min_fields_after_init_amended
    (inst : Inst) (w : World) (su : Nat) (el : FG)
    (hinit : inst.isInitialized = false)
    (hvs : validateSetup inst = true)
    (hsrc : inst.src = .ref su)
    (hel : lookupElem w su = some el)
    (hval : inst.cfg.validateOnAdd = false)
    (hown : cloneOwnOf inst el = true)
    (hwf : WFuids w)
    (hbounds : inst.cfg.minFields ≤ inst.cfg.maxFields)
    (hzero : (getOwnFieldGroups inst w).length = 0) :
    ∃ (inst' : Inst) (w' : World) (tr : List EvData),
      init inst w = .ok (inst', w', tr) ∧
      (getOwnFieldGroups inst' w').length = inst.cfg.minFields ∧
      inst.cfg.minFields ≤ (getOwnFieldGroups inst' w').length ∧
      (getOwnFieldGroups inst' w').length ≤ inst.cfg.maxFields := by
  have hcr : inst.containerResolved = true := by
    unfold validateSetup at hvs
    simp only [Bool.and_eq_true] at hvs
    exact hvs.2
  rcases setupInitialState_zero inst w su el hcr hsrc hel hwf
      (by rw [← getOwn_length]; exact hzero) with ⟨w2, hsetup, hz2, hel2, hwf2⟩
  have hbound2 : countFor ({ inst with fieldCounter := 0 } : Inst).cfg.groupName w2 +
      inst.cfg.minFields ≤ ({ inst with fieldCounter := 0 } : Inst).cfg.maxFields := by
    show countFor inst.cfg.groupName w2 + inst.cfg.minFields ≤ inst.cfg.maxFields
    rw [hz2]
    omega
  rcases createMinimumFieldsAux_spec inst.cfg.minFields
      { inst with fieldCounter := 0 } w2 su
      ({ el with displayNone := true }) hcr hsrc hel2 hval hown hwf2 hbound2 with
    ⟨i2, w3, trx, haux, hcfg2, hcnt3⟩
  obtain ⟨trAll, hfinal⟩ :
      ∃ trA, init inst w =
        .ok ({ i2 with isInitialized := true },
             (updateButtonStates i2 (bindEvents i2 w3)).1, trA) := by
    unfold init
    rw [if_neg (by rw [hinit]; simp), if_pos hvs, hsetup]
    unfold createMinimumFields
    dsimp only
    rw [haux, bind_ok_df]
    exact ⟨_, rfl⟩
  have hcount : (getOwnFieldGroups ({ i2 with isInitialized := true } : Inst)
      (updateButtonStates i2 (bindEvents i2 w3)).1).length = inst.cfg.minFields := by
    rw [getOwn_length]
    show countFor i2.cfg.groupName (updateButtonStates i2 (bindEvents i2 w3)).1 = _
    rw [countFor_updateButtonStates, countFor_bindEvents, hcnt3]
    show countFor inst.cfg.groupName w2 + inst.cfg.minFields = inst.cfg.minFields
    rw [hz2]
    omega
  exact ⟨_, _, trAll, hfinal, hcount, by rw [hcount], by rw [hcount]; exact hbounds⟩

/-- Claim C1 counterexample: with valid bounds `minFields = 2 ≤ maxFields
= 3` and setup resolving on a page where the template is the sole field
group present, `initialize()` completes with `getFieldCount() = 1`, which
violates `minFields ≤ getFieldCount()`: the conversion branch turns the
template into field #1 and never synthesizes the missing fields. -/
theorem C1_counterexample :
    (sInst sCfg23).cfg.minFields ≤ (sInst sCfg23).cfg.maxFields ∧
    validateSetup (sInst sCfg23) = true ∧
    isThrown (init (sInst sCfg23) sW1) = false ∧
    (getOwnFieldGroups s23.1 s23.2).length = 1 ∧
    ¬((sInst sCfg23).cfg.minFields ≤ (getOwnFieldGroups s23.1 s23.2).length) :=
  ⟨by decide, rfl, rfl, by decide, by decide⟩

/-- Claim C1 amended witness: bounds 2..3 on a page whose fields container
holds no live field (the template lives outside it): `init` completes and
yields exactly `minFields = 2` live fields, within the bounds. -/
theorem C1_amended_witness :
    validateSetup (sInst sCfg23) = true ∧
    (getOwnFieldGroups (sInst sCfg23) sWempty).length = 0 ∧
    (∃ (inst' : Inst) (w' : World) (tr : List EvData),
      init (sInst sCfg23) sWempty = .ok (inst', w', tr) ∧
      (getOwnFieldGroups inst' w').length = (sInst sCfg23).cfg.minFields ∧
      (sInst sCfg23).cfg.minFields ≤ (getOwnFieldGroups inst' w').length ∧
      (getOwnFieldGroups inst' w').length ≤ (sInst sCfg23).cfg.maxFields) :=
  ⟨rfl, rfl,
   C1_min_fields_after_init_amended (sInst sCfg23) sWempty 0 sTempl
     rfl rfl rfl rfl rfl rfl
     (by intro f hf
         have h : f = sTempl := by simpa [sWempty] using hf
         rw [h]; decide)
     (by decide) rfl⟩

/-! ## Characterization of a successful removal -/

theorem removeFieldElement_found (inst : Inst) (w : World) (uid : Nat) (el0 : FG)
    (hfind : w.fields.find? (fun f => f.uid == uid) = some el0) :
    removeFieldElement inst w uid =
      ((updateButtonStates inst (rmWorld w uid el0)).1,
       (updateButtonStates inst (rmWorld w uid el0)).2
         ++ [.fieldRemoved (getOwnFieldGroups inst (rmWorld w uid el0)).length]) := by
  unfold removeFieldElement
  rw [hfind]
  rfl

theorem removeSpecificField_success (inst : Inst) (w : World) (uid : Nat) (el0 : FG)
    (hcr : inst.containerResolved = true)
    (hgt : inst.cfg.minFields < (getOwnFieldGroups inst w).length)
    (hfind : w.fields.find? (fun f => f.uid == uid) = some el0) :
    removeSpecificField inst w uid = .ok (inst,
      (updateButtonStates inst (rmWorld w uid el0)).1, true,
      (updateButtonStates inst (rmWorld w uid el0)).2
        ++ [.fieldRemoved (getOwnFieldGroups inst (rmWorld w uid el0)).length]) := by
  unfold removeSpecificField getCurrentFieldCountE
  rw [if_pos hcr, bind_ok_df, if_neg (Nat.not_le.mpr hgt)]
  rw [removeFieldElement_found inst w uid el0 hfind]
  rfl

theorem removeField_success (inst : Inst) (w : World) (lf : FG) (el0 : FG)
    (hcr : inst.containerResolved = true)
    (hgt : inst.cfg.minFields < (getOwnFieldGroups inst w).length)
    (hlast : (getOwnFieldGroups inst w).getLast? = some lf)
    (hfind : w.fields.find? (fun f => f.uid == lf.uid) = some el0) :
    removeField inst w = .ok (inst,
      (updateButtonStates inst (rmWorld w lf.uid el0)).1, true,
      (updateButtonStates inst (rmWorld w lf.uid el0)).2
        ++ [.fieldRemoved (getOwnFieldGroups inst (rmWorld w lf.uid el0)).length]) := by
  unfold removeField
  rw [if_pos hcr, if_neg (Nat.not_le.mpr hgt), hlast]
  dsimp only
  rw [removeSpecificField_success inst w lf.uid el0 hcr hgt hfind, bind_ok_df]
  rfl

/-- Claim C3 (as corrected): on an active instance with
`getFieldCount() < maxFields`, `addField()` followed by `removeField()`
with no intervening add restores the prior field count and removes exactly
the field the `addField` call created — provided the pre-add count is at
least `minFields` (otherwise the `removeField` is refused by the minimum
check and the round trip leaves the extra field in place, see the
counterexample), validation-on-add is off, and the created clone belongs
to the instance. -/
theorem C3_round_trip_amended
    (inst : Inst) (w : World) (su : Nat) (el : FG)
    (hact : inst.isInitialized = true)
    (hcr : inst.containerResolved = true)
    (hsrc : inst.src = .ref su)
    (hel : lookupElem w su = some el)
    (hval : inst.cfg.validateOnAdd = false)
    (hown : cloneOwnOf inst el = true)
    (hwf : WFuids w)
    (hmin : inst.cfg.minFields ≤ (getOwnFieldGroups inst w).length)
    (hmax : (getOwnFieldGroups inst w).length < inst.cfg.maxFields) :
    ∃ (inst1 : Inst) (w1 : World) (tr1 : List EvData)
      (inst2 : Inst) (w2 : World) (tr2 : List EvData),
      addField inst w true = .ok (inst1, w1, some w.nextUid, tr1) ∧
      removeField inst1 w1 = .ok (inst2, w2, true, tr2) ∧
      w2.fields = w.fields ∧
      (getOwnFieldGroups inst2 w2).length = (getOwnFieldGroups inst w).length := by
  have hadd := addField_success inst w true su el hcr hsrc hel hval hmax
  have hnfown : isOwn inst.cfg.groupName
      (cloneFG inst el w.nextUid (inst.fieldCounter + 1)) = true := by
    rw [isOwn_cloneFG]; exact hown
  have hfresh : ∀ f ∈ w.fields,
      (f.uid == (cloneFG inst el w.nextUid (inst.fieldCounter + 1)).uid) = false := by
    intro f hf
    have hlt := hwf f (List.mem_append.mpr (Or.inl hf))
    rw [cloneFG_uid]
    simp only [beq_eq_false_iff_ne, ne_eq]
    omega
  have hw1fields :
      ((updateButtonStates { inst with fieldCounter := inst.fieldCounter + 1 }
        (afWorld inst w el)).1).fields
      = insertAfterLastOwn inst.cfg.groupName
          (cloneFG inst el w.nextUid (inst.fieldCounter + 1)) w.fields := by
    rw [updateButtonStates_fields]
    rfl
  have hfilter : getOwnFieldGroups { inst with fieldCounter := inst.fieldCounter + 1 }
      ((updateButtonStates { inst with fieldCounter := inst.fieldCounter + 1 }
        (afWorld inst w el)).1)
      = getOwnFieldGroups inst w ++ [cloneFG inst el w.nextUid (inst.fieldCounter + 1)] := by
    show ((updateButtonStates { inst with fieldCounter := inst.fieldCounter + 1 }
        (afWorld inst w el)).1).fields.filter (isOwn inst.cfg.groupName) = _
    rw [hw1fields]
    exact filter_insertAfterLastOwn_own hnfown w.fields
  have hgt : ({ inst with fieldCounter := inst.fieldCounter + 1 } : Inst).cfg.minFields <
      (getOwnFieldGroups { inst with fieldCounter := inst.fieldCounter + 1 }
        ((updateButtonStates { inst with fieldCounter := inst.fieldCounter + 1 }
          (afWorld inst w el)).1)).length := by
    rw [hfilter]
    show inst.cfg.minFields < _
    rw [List.length_append]
    simp only [List.length_singleton]
    omega
  have hlast : (getOwnFieldGroups { inst with fieldCounter := inst.fieldCounter + 1 }
      ((updateButtonStates { inst with fieldCounter := inst.fieldCounter + 1 }
        (afWorld inst w el)).1)).getLast?
      = some (cloneFG inst el w.nextUid (inst.fieldCounter + 1)) := by
    rw [hfilter]
    exact List.getLast?_concat _
  have hfind : ((updateButtonStates { inst with fieldCounter := inst.fieldCounter + 1 }
      (afWorld inst w el)).1).fields.find?
        (fun f => f.uid == (cloneFG inst el w.nextUid (inst.fieldCounter + 1)).uid)
      = some (cloneFG inst el w.nextUid (inst.fieldCounter + 1)) := by
    rw [hw1fields]
    exact find?_insertAfterLastOwn_self w.fields hfresh
  have hrem := removeField_success
    { inst with fieldCounter := inst.fieldCounter + 1 }
    ((updateButtonStates { inst with fieldCounter := inst.fieldCounter + 1 }
      (afWorld inst w el)).1)
    (cloneFG inst el w.nextUid (inst.fieldCounter + 1))
    (cloneFG inst el w.nextUid (inst.fieldCounter + 1))
    hcr hgt hlast hfind
  have herase : (rmWorld
      ((updateButtonStates { inst with fieldCounter := inst.fieldCounter + 1 }
        (afWorld inst w el)).1)
      (cloneFG inst el w.nextUid (inst.fieldCounter + 1)).uid
      (cloneFG inst el w.nextUid (inst.fieldCounter + 1))).fields = w.fields := by
    unfold rmWorld
    dsimp only
    rw [hw1fields]
    exact eraseP_insertAfterLastOwn w.fields hfresh
  refine ⟨_, _, _, _, _, _, hadd, hrem, ?_, ?_⟩
  · rw [updateButtonStates_fields]
    exact herase
  · rw [getOwn_length, countFor_updateButtonStates]
    show (List.filter (isOwn inst.cfg.groupName) _).length = _
    rw [herase]
    rfl

/-- Claim C3 counterexample: an active instance with bounds 2..3 whose
count is 1 (< maxFields): `addField()` succeeds (count 2), but the
following `removeField()` is refused by the minimum check (2 ≤ 2) and
returns false, so the prior count 1 is not restored and the added field is
not removed. -/
theorem C3_counterexample :
    s23.1.isInitialized = true ∧
    (getOwnFieldGroups s23.1 s23.2).length = 1 ∧
    (getOwnFieldGroups s23.1 s23.2).length < s23.1.cfg.maxFields ∧
    (getOwnFieldGroups (runAdd s23).1 (runAdd s23).2).length = 2 ∧
    (removeField (runAdd s23).1 (runAdd s23).2).toOption.map
      (fun x => x.2.2.1) = some false ∧
    (getOwnFieldGroups (runRemoveLast (runAdd s23)).1
      (runRemoveLast (runAdd s23)).2).length = 2 ∧
    ¬((getOwnFieldGroups (runRemoveLast (runAdd s23)).1
        (runRemoveLast (runAdd s23)).2).length
      = (getOwnFieldGroups s23.1 s23.2).length) :=
  ⟨by decide, by decide, by decide, by decide, by decide, by decide, by decide⟩

/-- Claim C3 amended witness: the default instance after `init` on the
sole-template page (count 1, bounds 1..5): the round trip restores the
page exactly. -/
theorem C3_witness :
    sD.1.isInitialized = true ∧
    sD.1.cfg.minFields ≤ (getOwnFieldGroups sD.1 sD.2).length ∧
    (getOwnFieldGroups sD.1 sD.2).length < sD.1.cfg.maxFields ∧
    (∃ (inst1 : Inst) (w1 : World) (tr1 : List EvData)
      (inst2 : Inst) (w2 : World) (tr2 : List EvData),
      addField sD.1 sD.2 true = .ok (inst1, w1, some sD.2.nextUid, tr1) ∧
      removeField inst1 w1 = .ok (inst2, w2, true, tr2) ∧
      w2.fields = sD.2.fields ∧
      (getOwnFieldGroups inst2 w2).length = (getOwnFieldGroups sD.1 sD.2).length) :=
  ⟨by decide, by decide, by decide,
   C3_round_trip_amended sD.1 sD.2 1 { sTempl with uid := 1, fgAttr := none, displayNone := true }
     (by decide) (by decide) (by decide) (by decide) (by decide) (by decide)
     (by decide) (by decide) (by decide)⟩

/-! ## Inversion lemmas: what any successful operation can have done -/

theorem pure_eq_ok {α : Type} (a : α) : (pure a : Except String α) = .ok a := rfl

theorem bind_error_df {α β : Type} (e : String) (f : α → Except String β) :
    (Except.error e : Except String α) >>= f = .error e := rfl

theorem mem_insertAfterLastOwn_of_mem {g : String} {nf x : FG} :
    ∀ {l : List FG}, x ∈ l → x ∈ insertAfterLastOwn g nf l := by
  intro l
  induction l with
  | nil => intro h; cases h
  | cons f rest ih =>
    intro h
    simp only [insertAfterLastOwn]
    split
    · rcases List.mem_cons.mp h with h1 | h1
      · exact List.mem_cons.mpr (Or.inl h1)
      · exact List.mem_cons.mpr (Or.inr (List.mem_cons.mpr (Or.inr h1)))
    · rcases List.mem_cons.mp h with h1 | h1
      · exact List.mem_cons.mpr (Or.inl h1)
      · exact List.mem_cons.mpr (Or.inr (ih h1))

theorem self_mem_insertAfterLastOwn {g : String} {nf : FG} :
    ∀ l : List FG, nf ∈ insertAfterLastOwn g nf l := by
  intro l
  induction l with
  | nil => exact List.mem_singleton.mpr rfl
  | cons f rest ih =>
    simp only [insertAfterLastOwn]
    split
    · exact List.mem_cons.mpr (Or.inr (List.mem_cons.mpr (Or.inl rfl)))
    · exact List.mem_cons.mpr (Or.inr ih)

theorem removeFieldElement_fields_sub (inst : Inst) (w : World) (u : Nat) :
    ∀ f ∈ (removeFieldElement inst w u).1.fields, f ∈ w.fields := by
  intro f hf
  unfold removeFieldElement at hf
  cases hfind : w.fields.find? (fun x => x.uid == u) with
  | none => rw [hfind] at hf; exact hf
  | some el0 =>
    rw [hfind] at hf
    dsimp only at hf
    rw [updateButtonStates_fields] at hf
    dsimp only at hf
    exact (List.eraseP_sublist w.fields).mem hf

theorem removeSpecificField_inv (inst : Inst) (w : World) (u : Nat)
    (inst' : Inst) (w' : World) (r : Bool) (tr : List EvData)
    (h : removeSpecificField inst w u = .ok (inst', w', r, tr)) :
    inst' = inst ∧ ∀ f ∈ w'.fields, f ∈ w.fields := by
  unfold removeSpecificField getCurrentFieldCountE at h
  by_cases hcr : inst.containerResolved = true
  · rw [if_pos hcr, bind_ok_df] at h
    split at h
    · rw [pure_eq_ok] at h
      simp only [Except.ok.injEq, Prod.mk.injEq] at h
      refine ⟨h.1.symm, ?_⟩
      rw [← h.2.1]
      intro f hf
      exact hf
    · cases hre : removeFieldElement inst w u with
      | mk w1 tr1 =>
        rw [hre] at h
        dsimp only at h
        rw [pure_eq_ok] at h
        simp only [Except.ok.injEq, Prod.mk.injEq] at h
        refine ⟨h.1.symm, ?_⟩
        rw [← h.2.1]
        have hsub := removeFieldElement_fields_sub inst w u
        rw [hre] at hsub
        exact hsub
  · rw [if_neg hcr, bind_error_df] at h
    cases h

theorem removeField_inv (inst : Inst) (w : World)
    (inst' : Inst) (w' : World) (r : Bool) (tr : List EvData)
    (h : removeField inst w = .ok (inst', w', r, tr)) :
    inst' = inst ∧ ∀ f ∈ w'.fields, f ∈ w.fields := by
  unfold removeField at h
  by_cases hcr : inst.containerResolved = true
  · rw [if_pos hcr] at h
    dsimp only at h
    split at h
    · simp only [Except.ok.injEq, Prod.mk.injEq] at h
      refine ⟨h.1.symm, ?_⟩
      rw [← h.2.1]
      intro f hf
      exact hf
    · split at h
      · rename_i lf hlast
        cases hrs : removeSpecificField inst w lf.uid with
        | error e => rw [hrs, bind_error_df] at h; cases h
        | ok res =>
          obtain ⟨res1, res2, resr, restr⟩ := res
          rw [hrs, bind_ok_df] at h
          dsimp only at h
          rw [pure_eq_ok] at h
          simp only [Except.ok.injEq, Prod.mk.injEq] at h
          have hinv := removeSpecificField_inv inst w lf.uid res1 res2 resr restr hrs
          refine ⟨by rw [← h.1]; exact hinv.1, ?_⟩
          rw [← h.2.1]
          exact hinv.2
      · cases h
  · rw [if_neg hcr] at h
    cases h

theorem addField_inv (inst : Inst) (w : World) (a : Bool)
    (inst' : Inst) (w' : World) (ret : Option Nat) (tr : List EvData)
    (h : addField inst w a = .ok (inst', w', ret, tr)) :
    inst.fieldCounter ≤ inst'.fieldCounter ∧
    (∀ f ∈ w.fields, f ∈ w'.fields) ∧
    (∀ u, ret = some u → inst'.fieldCounter = inst.fieldCounter + 1 ∧
      ∃ nf, nf ∈ w'.fields ∧ nf.uid = u ∧
        nf.fgAttr = some (toString inst'.fieldCounter)) := by
  unfold addField getCurrentFieldCountE at h
  by_cases hcr : inst.containerResolved = true
  · rw [if_pos hcr, bind_ok_df] at h
    split at h
    · rw [pure_eq_ok] at h
      simp only [Except.ok.injEq, Prod.mk.injEq] at h
      obtain ⟨h1, h2, h3, h4⟩ := h
      refine ⟨by rw [← h1], by rw [← h2]; intro f hf; exact hf, ?_⟩
      intro u hu
      rw [← h3] at hu
      cases hu
    · split at h
      · rw [pure_eq_ok] at h
        simp only [Except.ok.injEq, Prod.mk.injEq] at h
        obtain ⟨h1, h2, h3, h4⟩ := h
        refine ⟨by rw [← h1], by rw [← h2]; intro f hf; exact hf, ?_⟩
        intro u hu
        rw [← h3] at hu
        cases hu
      · dsimp only at h
        cases hcf : createNewFieldE { inst with fieldCounter := inst.fieldCounter + 1 }
            w (inst.fieldCounter + 1) with
        | error e => rw [hcf, bind_error_df] at h; cases h
        | ok res =>
          obtain ⟨nf, w1⟩ := res
          rw [hcf, bind_ok_df] at h
          dsimp only at h
          rw [pure_eq_ok] at h
          simp only [Except.ok.injEq, Prod.mk.injEq] at h
          obtain ⟨h1, h2, h3, h4⟩ := h
          unfold createNewFieldE at hcf
          cases hsrc : inst.src with
          | unresolved =>
            rw [show ({ inst with fieldCounter := inst.fieldCounter + 1 } : Inst).src
                  = SrcLoc.unresolved from hsrc] at hcf
            cases hcf
          | ref su =>
            rw [show ({ inst with fieldCounter := inst.fieldCounter + 1 } : Inst).src
                  = SrcLoc.ref su from hsrc] at hcf
            dsimp only at hcf
            cases hel : lookupElem w su with
            | none => rw [hel] at hcf; cases hcf
            | some el =>
              rw [hel] at hcf
              simp only [Except.ok.injEq, Prod.mk.injEq] at hcf
              refine ⟨by rw [← h1]; exact Nat.le_succ _, ?_, ?_⟩
              · intro f hf
                rw [← h2, updateButtonStates_fields, ← hcf.2]
                dsimp only [insertField]
                exact mem_insertAfterLastOwn_of_mem hf
              · intro u hu
                rw [← h3] at hu
                injection hu with hu
                refine ⟨by rw [← h1], nf, ?_, hu, ?_⟩
                · rw [← h2, updateButtonStates_fields, ← hcf.2]
                  dsimp only [insertField]
                  exact self_mem_insertAfterLastOwn _
                · rw [← hcf.1, ← h1]
                  rfl
  · rw [if_neg hcr, bind_error_df] at h
    cases h

/-- Claim C4: field indices come from the per-instance monotonic counter
and are never renumbered or reused: no removal changes the counter or any
surviving field's record (in particular its `data-field-group` index); a
successful add advances the counter by exactly one, leaves every existing
field record in place and stamps the new field with the new counter value;
and the concrete run — create fields #1..#4, remove #3 by direct
reference, add once more — leaves live indices {1,2,4,5} with the counter
at 5. -/
theorem C4_index_stability :
    (∀ (inst : Inst) (w : World) (u : Nat) (inst' : Inst) (w' : World)
        (r : Bool) (tr : List EvData),
        removeSpecificField inst w u = .ok (inst', w', r, tr) →
        inst'.fieldCounter = inst.fieldCounter ∧ ∀ f ∈ w'.fields, f ∈ w.fields) ∧
    (∀ (inst : Inst) (w : World) (inst' : Inst) (w' : World)
        (r : Bool) (tr : List EvData),
        removeField inst w = .ok (inst', w', r, tr) →
        inst'.fieldCounter = inst.fieldCounter ∧ ∀ f ∈ w'.fields, f ∈ w.fields) ∧
    (∀ (inst : Inst) (w : World) (a : Bool) (inst' : Inst) (w' : World)
        (ret : Option Nat) (tr : List EvData),
        addField inst w a = .ok (inst', w', ret, tr) →
        inst.fieldCounter ≤ inst'.fieldCounter ∧
        (∀ f ∈ w.fields, f ∈ w'.fields) ∧
        (∀ u, ret = some u → inst'.fieldCounter = inst.fieldCounter + 1 ∧
          ∃ nf, nf ∈ w'.fields ∧ nf.uid = u ∧
            nf.fgAttr = some (toString inst'.fieldCounter))) ∧
    (ownIdxAttrs s4done = [some "1", some "2", some "4", some "5"] ∧
      s4done.1.fieldCounter = 5) := by
  refine ⟨?_, ?_, ?_, by decide, by decide⟩
  · intro inst w u inst' w' r tr h
    obtain ⟨h1, h2⟩ := removeSpecificField_inv inst w u inst' w' r tr h
    exact ⟨by rw [h1], h2⟩
  · intro inst w inst' w' r tr h
    obtain ⟨h1, h2⟩ := removeField_inv inst w inst' w' r tr h
    exact ⟨by rw [h1], h2⟩
  · intro inst w a inst' w' ret tr h
    exact addField_inv inst w a inst' w' ret tr h

/-- Claim C4 witness: the inversion facts at the concrete scenario run —
removing field #3 from the four-field page preserves the counter (4) and
keeps all surviving records, and the subsequent add returns a field
stamped `data-field-group = "5"`. -/
theorem C4_witness :
    (removeSpecificField s4.1 s4.2 3).toOption.map (fun x => x.1.fieldCounter)
      = some 4 ∧
    s4.1.fieldCounter = 4 ∧
    (∃ (inst' : Inst) (w' : World) (r : Bool) (tr : List EvData),
      removeSpecificField s4.1 s4.2 3 = .ok (inst', w', r, tr) ∧
      inst'.fieldCounter = s4.1.fieldCounter ∧ ∀ f ∈ w'.fields, f ∈ s4.2.fields) := by
  refine ⟨by decide, by decide, ?_⟩
  cases hrs : removeSpecificField s4.1 s4.2 3 with
  | error e =>
    exfalso
    have : (removeSpecificField s4.1 s4.2 3).toOption.map (fun x => x.1.fieldCounter)
        = some 4 := by decide
    rw [hrs] at this
    cases this
  | ok res =>
    obtain ⟨i1, w1, r1, t1⟩ := res
    have := C4_index_stability.1 s4.1 s4.2 3 i1 w1 r1 t1 hrs
    exact ⟨i1, w1, r1, t1, rfl, this.1, this.2⟩

/-- Claim C7 evaluation (the code contradicts the claim): a destroyed
instance still processes `addField`, which mutates the page (own count 1
becomes 2), because no operation consults `isInitialized`; an instance
whose setup validation failed (template unresolved) throws a fault from
`addField` (`cloneNode` on null); and with the container unresolved even
`getFieldCount` throws. -/
theorem C7_inactive_ops_evaluation :
    sDestroyed.1.isInitialized = false ∧
    (getOwnFieldGroups sDestroyed.1 sDestroyed.2).length = 1 ∧
    sDestroyedAddCount = some 2 ∧
    isThrown (addField sDestroyed.1 sDestroyed.2 true) = false ∧
    validateSetup sInstFail = false ∧
    isThrown (addField sInstFail sW1 true) = true ∧
    isThrown (getCurrentFieldCountE sInstNoC sW1) = true :=
  ⟨by decide, by decide, by decide, by decide, by decide, by decide, by decide⟩

/-! ## Shapes of instances produced by the operations (the refs and the
configuration never change) -/

theorem btnSyncOk_counterIrrel (inst : Inst) (n : Nat) (w : World) :
    btnSyncOk { inst with fieldCounter := n } w = btnSyncOk inst w := rfl

theorem addField_shape (inst : Inst) (w : World) (a : Bool)
    (inst' : Inst) (w' : World) (ret : Option Nat) (tr : List EvData)
    (h : addField inst w a = .ok (inst', w', ret, tr)) :
    ∃ n, inst' = { inst with fieldCounter := n } := by
  unfold addField getCurrentFieldCountE at h
  by_cases hcr : inst.containerResolved = true
  · rw [if_pos hcr, bind_ok_df] at h
    split at h
    · rw [pure_eq_ok] at h
      simp only [Except.ok.injEq, Prod.mk.injEq] at h
      exact ⟨inst.fieldCounter, by rw [← h.1]⟩
    · split at h
      · rw [pure_eq_ok] at h
        simp only [Except.ok.injEq, Prod.mk.injEq] at h
        exact ⟨inst.fieldCounter, by rw [← h.1]⟩
      · dsimp only at h
        cases hcf : createNewFieldE { inst with fieldCounter := inst.fieldCounter + 1 }
            w (inst.fieldCounter + 1) with
        | error e => rw [hcf, bind_error_df] at h; cases h
        | ok res =>
          obtain ⟨nf, w1⟩ := res
          rw [hcf, bind_ok_df] at h
          dsimp only at h
          rw [pure_eq_ok] at h
          simp only [Except.ok.injEq, Prod.mk.injEq] at h
          exact ⟨inst.fieldCounter + 1, h.1.symm⟩
  · rw [if_neg hcr, bind_error_df] at h
    cases h

theorem createMinimumFieldsAux_shape :
    ∀ (n : Nat) (inst : Inst) (w : World) (inst' : Inst) (w' : World)
      (tr : List EvData),
      createMinimumFieldsAux inst w n = .ok (inst', w', tr) →
      ∃ m, inst' = { inst with fieldCounter := m } := by
  intro n
  induction n with
  | zero =>
    intro inst w inst' w' tr h
    unfold createMinimumFieldsAux at h
    simp only [Except.ok.injEq, Prod.mk.injEq] at h
    exact ⟨inst.fieldCounter, by rw [← h.1]⟩
  | succ n ih =>
    intro inst w inst' w' tr h
    unfold createMinimumFieldsAux at h
    cases hadd : addField inst w false with
    | error e => rw [hadd, bind_error_df] at h; cases h
    | ok res =>
      obtain ⟨i1, w1, ret1, tr1⟩ := res
      rw [hadd, bind_ok_df] at h
      dsimp only at h
      cases haux : createMinimumFieldsAux i1 w1 n with
      | error e => rw [haux, bind_error_df] at h; cases h
      | ok res2 =>
        obtain ⟨i2, w2, tr2⟩ := res2
        rw [haux, bind_ok_df] at h
        dsimp only at h
        rw [pure_eq_ok] at h
        simp only [Except.ok.injEq, Prod.mk.injEq] at h
        obtain ⟨m1, hm1⟩ := addField_shape inst w false i1 w1 ret1 tr1 hadd
        obtain ⟨m2, hm2⟩ := ih i1 w1 i2 w2 tr2 haux
        refine ⟨m2, ?_⟩
        rw [← h.1, hm2, hm1]

theorem setupInitialState_shape (inst : Inst) (w : World)
    (inst' : Inst) (w' : World) (tr : List EvData)
    (h : setupInitialState inst w = .ok (inst', w', tr)) :
    ∃ (m : Nat) (s : SrcLoc), inst' = { inst with fieldCounter := m, src := s } := by
  unfold setupInitialState getCurrentFieldCountE at h
  by_cases hcr : inst.containerResolved = true
  · rw [if_pos hcr, bind_ok_df] at h
    dsimp only at h
    split at h
    · -- conversion branch
      cases hconv : convertSourceToWorkingField
          { inst with fieldCounter := (getOwnFieldGroups inst w).length }
          (match inst.removeRef with
           | some u =>
             if inst.cfg.hideRemoveButtonWhenMinReached &&
                decide ((getOwnFieldGroups inst w).length ≤ inst.cfg.minFields)
             then updBtn w u (fun b => { b with display := "none" }) else w
           | none => w) with
      | mk ci cw =>
        rw [hconv] at h
        dsimp only at h
        rw [pure_eq_ok] at h
        simp only [Except.ok.injEq, Prod.mk.injEq] at h
        unfold convertSourceToWorkingField at hconv
        cases hsrc : inst.src with
        | unresolved =>
          rw [show ({ inst with fieldCounter := (getOwnFieldGroups inst w).length } : Inst).src
                = SrcLoc.unresolved from hsrc] at hconv
          simp only [Prod.mk.injEq] at hconv
          exact ⟨(getOwnFieldGroups inst w).length, inst.src,
            by rw [← h.1, ← hconv.1, hsrc]⟩
        | ref su =>
          rw [show ({ inst with fieldCounter := (getOwnFieldGroups inst w).length } : Inst).src
                = SrcLoc.ref su from hsrc] at hconv
          dsimp only at hconv
          cases hlk : lookupElem (updElem (match inst.removeRef with
              | some u =>
                if inst.cfg.hideRemoveButtonWhenMinReached &&
                   decide ((getOwnFieldGroups inst w).length ≤ inst.cfg.minFields)
                then updBtn w u (fun b => { b with display := "none" }) else w
              | none => w) su
              (fun f =>
                let f1 := { f with fgAttr := some "1" }
                if inst.cfg.groupName ≠ "default"
                then { f1 with gName := some inst.cfg.groupName } else f1)) su with
          | some el =>
            rw [hlk] at hconv
            simp only [Prod.mk.injEq] at hconv
            refine ⟨1, _, by rw [← h.1, ← hconv.1]⟩
          | none =>
            rw [hlk] at hconv
            simp only [Prod.mk.injEq] at hconv
            exact ⟨1, SrcLoc.ref su, by rw [← h.1, ← hconv.1]⟩
    · split at h
      · obtain ⟨m, hm⟩ := createMinimumFieldsAux_shape _ _ _ _ _ _ h
        exact ⟨m, inst.src, by rw [hm]⟩
      · rw [pure_eq_ok] at h
        simp only [Except.ok.injEq, Prod.mk.injEq] at h
        exact ⟨(getOwnFieldGroups inst w).length, inst.src, by rw [← h.1]⟩
  · rw [if_neg hcr, bind_error_df] at h
    cases h

theorem btnSyncOk_initIrrel (inst : Inst) (b : Bool) (w : World) :
    btnSyncOk { inst with isInitialized := b } w = btnSyncOk inst w := rfl

theorem addField_btnSync (inst : Inst) (w : World) (a : Bool)
    (inst' : Inst) (w' : World) (u : Nat) (tr : List EvData)
    (hd : ∀ ua ur, inst.addRef = some ua → inst.removeRef = some ur → ua ≠ ur)
    (h : addField inst w a = .ok (inst', w', some u, tr)) :
    btnSyncOk inst' w' = true := by
  unfold addField getCurrentFieldCountE at h
  by_cases hcr : inst.containerResolved = true
  · rw [if_pos hcr, bind_ok_df] at h
    split at h
    · rw [pure_eq_ok] at h
      simp only [Except.ok.injEq, Prod.mk.injEq] at h
      exact Option.noConfusion h.2.2.1
    · split at h
      · rw [pure_eq_ok] at h
        simp only [Except.ok.injEq, Prod.mk.injEq] at h
        exact Option.noConfusion h.2.2.1
      · dsimp only at h
        cases hcf : createNewFieldE { inst with fieldCounter := inst.fieldCounter + 1 }
            w (inst.fieldCounter + 1) with
        | error e => rw [hcf, bind_error_df] at h; cases h
        | ok res =>
          obtain ⟨nf, w1⟩ := res
          rw [hcf, bind_ok_df] at h
          dsimp only at h
          rw [pure_eq_ok] at h
          simp only [Except.ok.injEq, Prod.mk.injEq] at h
          rw [← h.1, ← h.2.1]
          exact btnSyncOk_updateButtonStates _ _ (fun ua ur ha hr => hd ua ur ha hr)
  · rw [if_neg hcr, bind_error_df] at h
    cases h

theorem removeField_btnSync (inst : Inst) (w : World)
    (inst' : Inst) (w' : World) (tr : List EvData)
    (hd : ∀ ua ur, inst.addRef = some ua → inst.removeRef = some ur → ua ≠ ur)
    (h : removeField inst w = .ok (inst', w', true, tr)) :
    btnSyncOk inst' w' = true := by
  unfold removeField at h
  by_cases hcr : inst.containerResolved = true
  · rw [if_pos hcr] at h
    dsimp only at h
    split at h
    · simp only [Except.ok.injEq, Prod.mk.injEq] at h
      exact Bool.noConfusion h.2.2.1
    · rename_i hgt
      split at h
      · rename_i lf hlast
        have hmem0 : lf ∈ getOwnFieldGroups inst w :=
          List.mem_of_getLast?_eq_some hlast
        have hmem : lf ∈ w.fields := by
          unfold getOwnFieldGroups at hmem0
          exact List.mem_of_mem_filter hmem0
        obtain ⟨el0, hfind⟩ :
            ∃ el0, w.fields.find? (fun f => f.uid == lf.uid) = some el0 := by
          cases hf : w.fields.find? (fun f => f.uid == lf.uid) with
          | some el0 => exact ⟨el0, rfl⟩
          | none =>
            have := List.find?_eq_none.mp hf lf hmem
            simp at this
        rw [removeSpecificField_success inst w lf.uid el0 hcr
              (Nat.not_le.mp hgt) hfind, bind_ok_df] at h
        dsimp only at h
        rw [pure_eq_ok] at h
        simp only [Except.ok.injEq, Prod.mk.injEq] at h
        rw [← h.1, ← h.2.1]
        exact btnSyncOk_updateButtonStates _ _ hd
      · cases h
  · rw [if_neg hcr] at h
    cases h

theorem init_btnSync (inst : Inst) (w : World)
    (inst' : Inst) (w' : World) (tr : List EvData)
    (hd : ∀ ua ur, inst.addRef = some ua → inst.removeRef = some ur → ua ≠ ur)
    (hini : inst.isInitialized = false)
    (hval : validateSetup inst = true)
    (h : init inst w = .ok (inst', w', tr)) :
    btnSyncOk inst' w' = true := by
  unfold init at h
  rw [if_neg (by simp [hini]), if_pos hval] at h
  cases hsu : setupInitialState inst w with
  | error e => rw [hsu, bind_error_df] at h; cases h
  | ok res =>
    obtain ⟨inst1, w1, tr1⟩ := res
    rw [hsu, bind_ok_df] at h
    dsimp only at h
    rw [pure_eq_ok] at h
    simp only [Except.ok.injEq, Prod.mk.injEq] at h
    obtain ⟨m, s, hm⟩ := setupInitialState_shape inst w inst1 w1 tr1 hsu
    have hd1 : ∀ ua ur, inst1.addRef = some ua → inst1.removeRef = some ur →
        ua ≠ ur := by
      rw [hm]; exact hd
    rw [← h.1, ← h.2.1, btnSyncOk_initIrrel]
    exact btnSyncOk_updateButtonStates _ _ hd1

theorem countFor_insertField_not (g : String) (i : Inst) (x : World) (nf : FG)
    (h : isOwn g nf = false) :
    countFor g (insertField i x nf) = countFor g x := by
  unfold countFor insertField
  dsimp only
  rw [filter_insertAfterLastOwn_not h]

theorem isOwn_cloneFG_other (iB : Inst) (el : FG) (u idx : Nat) (gA : String)
    (hgBd : iB.cfg.groupName ≠ "default")
    (hgBe : iB.cfg.groupName ≠ "")
    (hgAB : gA ≠ iB.cfg.groupName) :
    isOwn gA (cloneFG iB el u idx) = false := by
  unfold isOwn cloneFG
  rw [if_pos hgBd]
  have h1 : iB.cfg.groupName ≠ gA := fun h => hgAB h.symm
  simp [tagFalsy, hgBe, h1]

theorem addField_isolation (iA iB : Inst) (w : World) (a : Bool)
    (iB1 : Inst) (w1 : World) (ret : Option Nat) (tr1 : List EvData)
    (hgBd : iB.cfg.groupName ≠ "default")
    (hgBe : iB.cfg.groupName ≠ "")
    (hgAB : iA.cfg.groupName ≠ iB.cfg.groupName)
    (hbtn : ∀ u, iA.addRef = some u ∨ iA.removeRef = some u →
      iB.addRef ≠ some u ∧ iB.removeRef ≠ some u)
    (h : addField iB w a = .ok (iB1, w1, ret, tr1)) :
    countFor iA.cfg.groupName w1 = countFor iA.cfg.groupName w ∧
      ∀ u, iA.addRef = some u ∨ iA.removeRef = some u →
        btnAt w1 u = btnAt w u := by
  unfold addField getCurrentFieldCountE at h
  by_cases hcr : iB.containerResolved = true
  · rw [if_pos hcr, bind_ok_df] at h
    split at h
    · rw [pure_eq_ok] at h
      simp only [Except.ok.injEq, Prod.mk.injEq] at h
      rw [← h.2.1]
      exact ⟨rfl, fun u hu => rfl⟩
    · split at h
      · rw [pure_eq_ok] at h
        simp only [Except.ok.injEq, Prod.mk.injEq] at h
        rw [← h.2.1]
        exact ⟨rfl, fun u hu => rfl⟩
      · dsimp only at h
        cases hcf : createNewFieldE { iB with fieldCounter := iB.fieldCounter + 1 }
            w (iB.fieldCounter + 1) with
        | error e => rw [hcf, bind_error_df] at h; cases h
        | ok res =>
          obtain ⟨nf, wc⟩ := res
          rw [hcf, bind_ok_df] at h
          dsimp only at h
          rw [pure_eq_ok] at h
          simp only [Except.ok.injEq, Prod.mk.injEq] at h
          unfold createNewFieldE at hcf
          cases hsrc : iB.src with
          | unresolved =>
            rw [show ({ iB with fieldCounter := iB.fieldCounter + 1 } : Inst).src
                  = SrcLoc.unresolved from hsrc] at hcf
            cases hcf
          | ref su =>
            rw [show ({ iB with fieldCounter := iB.fieldCounter + 1 } : Inst).src
                  = SrcLoc.ref su from hsrc] at hcf
            dsimp only at hcf
            cases hel : lookupElem w su with
            | none => rw [hel] at hcf; cases hcf
            | some el =>
              rw [hel] at hcf
              simp only [Except.ok.injEq, Prod.mk.injEq] at hcf
              have hown : isOwn iA.cfg.groupName nf = false := by
                rw [← hcf.1]
                exact isOwn_cloneFG_other _ el w.nextUid (iB.fieldCounter + 1)
                  _ hgBd hgBe hgAB
              constructor
              · rw [← h.2.1, countFor_updateButtonStates,
                    countFor_insertField_not _ _ _ _ hown, ← hcf.2]
                rfl
              · intro u hu
                rw [← h.2.1,
                    btnAt_updateButtonStates_other
                      { iB with fieldCounter := iB.fieldCounter + 1 }
                      (insertField { iB with fieldCounter := iB.fieldCounter + 1 } wc nf)
                      u (hbtn u hu).1 (hbtn u hu).2,
                    ← hcf.2]
                rfl
  · rw [if_neg hcr, bind_error_df] at h
    cases h

theorem removeField_isolation (iA iB : Inst) (w : World)
    (iB2 : Inst) (w2 : World) (r : Bool) (tr2 : List EvData)
    (hbtn : ∀ u, iA.addRef = some u ∨ iA.removeRef = some u →
      iB.addRef ≠ some u ∧ iB.removeRef ≠ some u)
    (htag : ∀ f ∈ w.fields, isOwn iB.cfg.groupName f = true →
      isOwn iA.cfg.groupName f = false)
    (hnd : WFnodup w)
    (h : removeField iB w = .ok (iB2, w2, r, tr2)) :
    countFor iA.cfg.groupName w2 = countFor iA.cfg.groupName w ∧
      ∀ u, iA.addRef = some u ∨ iA.removeRef = some u →
        btnAt w2 u = btnAt w u := by
  unfold removeField at h
  by_cases hcr : iB.containerResolved = true
  · rw [if_pos hcr] at h
    dsimp only at h
    split at h
    · simp only [Except.ok.injEq, Prod.mk.injEq] at h
      rw [← h.2.1]
      exact ⟨rfl, fun u hu => rfl⟩
    · rename_i hgt
      split at h
      · rename_i lf hlast
        have hmem0 : lf ∈ getOwnFieldGroups iB w :=
          List.mem_of_getLast?_eq_some hlast
        have hownB : isOwn iB.cfg.groupName lf = true := by
          unfold getOwnFieldGroups at hmem0
          exact List.of_mem_filter hmem0
        have hmem : lf ∈ w.fields := by
          unfold getOwnFieldGroups at hmem0
          exact List.mem_of_mem_filter hmem0
        obtain ⟨el0, hfind⟩ :
            ∃ el0, w.fields.find? (fun f => f.uid == lf.uid) = some el0 := by
          cases hf : w.fields.find? (fun f => f.uid == lf.uid) with
          | some el0 => exact ⟨el0, rfl⟩
          | none =>
            have := List.find?_eq_none.mp hf lf hmem
            simp at this
        rw [removeSpecificField_success iB w lf.uid el0 hcr
              (Nat.not_le.mp hgt) hfind, bind_ok_df] at h
        dsimp only at h
        rw [pure_eq_ok] at h
        simp only [Except.ok.injEq, Prod.mk.injEq] at h
        have himp : ∀ f ∈ w.fields, (f.uid == lf.uid) = true →
            isOwn iA.cfg.groupName f = false := by
          intro f hf hq
          have hfl : f = lf :=
            uid_unique_of_pairwise w.fields hnd f hf lf hmem (by simpa using hq)
          rw [hfl]
          exact htag lf hmem hownB
        constructor
        · rw [← h.2.1, countFor_updateButtonStates]
          unfold countFor rmWorld
          dsimp only
          rw [filter_eraseP_of_imp w.fields himp]
        · intro u hu
          rw [← h.2.1,
              btnAt_updateButtonStates_other _ _ u (hbtn u hu).1 (hbtn u hu).2]
          rfl
      · cases h
  · rw [if_neg hcr] at h
    cases h

/-- Claim C5 counterexample: instances `"default"` (A) and `"work"` (B)
share the page `sW2`.  After A initializes, B's `getFieldCount()` is
already 2 (it counts A's untagged field: the ownership test accepts every
field whose `data-group-name` is absent or empty); after A adds one field —
a clone left untagged because A's group is `"default"` — B's count rises
to 3, so B counts a field created by A and the claimed two-instance
isolation fails. -/
theorem C5_counterexample :
    sInstA.cfg.groupName ≠ sInstB.cfg.groupName ∧
    (getOwnFieldGroups sInstB sAB.2).length = 2 ∧
    (getOwnFieldGroups sInstB sABadd.2).length = 3 := by decide

/-- Claim C5 (as corrected): isolation does hold once every field group on
the page is tagged and the operating instance's group name is neither
`"default"` nor empty.  If instance B's group name is not `"default"`, not
empty and different from instance A's, B's buttons are distinct from A's,
every field B owns is not owned by A, and the field uids are pairwise
distinct, then any `addField` and any `removeField` performed by B
preserve A's `getFieldCount()` and leave A's located controls untouched. -/
theorem C5_isolation_amended
    (iA iB : Inst) (w : World) (a : Bool)
    (iB1 : Inst) (w1 : World) (ret : Option Nat) (tr1 : List EvData)
    (iB2 : Inst) (w2 : World) (r : Bool) (tr2 : List EvData)
    (hgBd : iB.cfg.groupName ≠ "default")
    (hgBe : iB.cfg.groupName ≠ "")
    (hgAB : iA.cfg.groupName ≠ iB.cfg.groupName)
    (hbtn : ∀ u, iA.addRef = some u ∨ iA.removeRef = some u →
      iB.addRef ≠ some u ∧ iB.removeRef ≠ some u)
    (htag : ∀ f ∈ w.fields, isOwn iB.cfg.groupName f = true →
      isOwn iA.cfg.groupName f = false)
    (hnd : WFnodup w)
    (hadd : addField iB w a = .ok (iB1, w1, ret, tr1))
    (hrem : removeField iB w = .ok (iB2, w2, r, tr2)) :
    (countFor iA.cfg.groupName w1 = countFor iA.cfg.groupName w ∧
      ∀ u, iA.addRef = some u ∨ iA.removeRef = some u →
        btnAt w1 u = btnAt w u) ∧
    (countFor iA.cfg.groupName w2 = countFor iA.cfg.groupName w ∧
      ∀ u, iA.addRef = some u ∨ iA.removeRef = some u →
        btnAt w2 u = btnAt w u) :=
  ⟨addField_isolation iA iB w a iB1 w1 ret tr1 hgBd hgBe hgAB hbtn hadd,
   removeField_isolation iA iB w iB2 w2 r tr2 hbtn htag hnd hrem⟩

/-- Claim C5 amended witness: on the fully-tagged page `sW3`, instance B's
add and remove leave instance A's count and add control untouched. -/
theorem C5_witness :
    countFor sInstC5A.cfg.groupName sC5add.2 =
        countFor sInstC5A.cfg.groupName sW3 ∧
    countFor sInstC5A.cfg.groupName sC5rem.2 =
        countFor sInstC5A.cfg.groupName sW3 ∧
    btnAt sC5add.2 13 = btnAt sW3 13 ∧
    btnAt sC5rem.2 13 = btnAt sW3 13 := by
  have hbtn : ∀ u, sInstC5A.addRef = some u ∨ sInstC5A.removeRef = some u →
      sInstC5B.addRef ≠ some u ∧ sInstC5B.removeRef ≠ some u := by
    intro u hu
    rcases hu with hh | hh
    · rw [show sInstC5A.addRef = some 13 from rfl] at hh
      injection hh with hh
      subst hh
      exact ⟨by decide, by decide⟩
    · rw [show sInstC5A.removeRef = (none : Option Nat) from rfl] at hh
      exact Option.noConfusion hh
  have h := C5_isolation_amended sInstC5A sInstC5B sW3 true
    sC5add.1 sC5add.2 (some 31)
    [.buttonStatesUpdated 3 false false, .fieldAdded 31 1 3]
    sC5rem.1 sC5rem.2 true
    [.buttonStatesUpdated 1 false true, .fieldRemoved 1]
    (by decide) (by decide) (by decide) hbtn (by decide) (by decide) rfl rfl
  exact ⟨h.1.1, h.2.1, h.1.2 13 (Or.inl rfl), h.2.2 13 (Or.inl rfl)⟩

/-- Claim C8: after every successful `addField` (a field reference is
returned), after every successful `removeField` (it returns `true`), and
once during a real initialization (`init` on an uninitialized instance
whose setup validates), the located add control is disabled — `is-disabled`
class, `disabled` property and `aria-disabled` — iff the resulting own
field count is at least `maxFields`, the located remove control is
disabled iff that count is at most `minFields`, and under
`hideRemoveButtonWhenMinReached` the remove control's inline display is
`"none"` exactly when it is disabled and reset to `""` otherwise; the
count is recomputed from the resulting page, never cached
(`btnSyncOk` recomputes it from the final world).  The two controls are
assumed to be distinct elements when both are located. -/
theorem C8_button_sync
    (iA : Inst) (wA : World) (a : Bool) (iA' : Inst) (wA' : World)
    (uA : Nat) (trA : List EvData)
    (iB : Inst) (wB : World) (iB' : Inst) (wB' : World) (trB : List EvData)
    (iC : Inst) (wC : World) (iC' : Inst) (wC' : World) (trC : List EvData)
    (hdA : ∀ ua ur, iA.addRef = some ua → iA.removeRef = some ur → ua ≠ ur)
    (hdB : ∀ ua ur, iB.addRef = some ua → iB.removeRef = some ur → ua ≠ ur)
    (hdC : ∀ ua ur, iC.addRef = some ua → iC.removeRef = some ur → ua ≠ ur)
    (hadd : addField iA wA a = .ok (iA', wA', some uA, trA))
    (hrem : removeField iB wB = .ok (iB', wB', true, trB))
    (hiniC : iC.isInitialized = false)
    (hvalC : validateSetup iC = true)
    (hinit : init iC wC = .ok (iC', wC', trC)) :
    btnSyncOk iA' wA' = true ∧ btnSyncOk iB' wB' = true ∧
      btnSyncOk iC' wC' = true :=
  ⟨addField_btnSync iA wA a iA' wA' uA trA hdA hadd,
   removeField_btnSync iB wB iB' wB' trB hdB hrem,
   init_btnSync iC wC iC' wC' trC hdC hiniC hvalC hinit⟩

/-- Claim C8 witness: on the two-control page, the buttons are in sync
after the `addField` that follows initialization, after the `removeField`
that follows it, and after `init` itself. -/
theorem C8_witness :
    btnSyncOk sRadd.1 sRadd.2 = true ∧ btnSyncOk sRrem.1 sRrem.2 = true ∧
      btnSyncOk sR.1 sR.2 = true := by
  have key : ∀ (i : Inst), i.addRef = some 10 → i.removeRef = some 12 →
      ∀ ua ur, i.addRef = some ua → i.removeRef = some ur → ua ≠ ur := by
    intro i h10 h12 ua ur ha hr
    rw [h10] at ha
    rw [h12] at hr
    injection ha with ha
    injection hr with hr
    omega
  exact C8_button_sync sR.1 sR.2 true sRadd.1 sRadd.2 2
    [.buttonStatesUpdated 2 false false, .fieldAdded 2 2 2]
    sRadd.1 sRadd.2 sRrem.1 sRrem.2
    [.buttonStatesUpdated 1 false true, .fieldRemoved 1]
    sInstR sW1R sR.1 sR.2
    [.buttonStatesUpdated 1 false true, .initializedEv "i1"]
    (key _ rfl rfl) (key _ rfl rfl) (key _ rfl rfl)
    rfl rfl rfl rfl rfl

/-! ## Naming-rewrite lemmas (claim C6) -/

theorem modAt_length (f : DElem → DElem) :
    ∀ (l : List DElem) (k : Nat), (modAt l k f).length = l.length := by
  intro l
  induction l with
  | nil => intro k; rfl
  | cons e rest ih =>
    intro k
    cases k with
    | zero => rfl
    | succ n => simp [modAt, ih n]

theorem get?_modAt_ne (f : DElem → DElem) :
    ∀ (l : List DElem) (k j : Nat), j ≠ k →
      (modAt l k f).get? j = l.get? j := by
  intro l
  induction l with
  | nil => intro k j _; rfl
  | cons e rest ih =>
    intro k j hne
    cases k with
    | zero =>
      cases j with
      | zero => exact absurd rfl hne
      | succ m => rfl
    | succ n =>
      cases j with
      | zero => rfl
      | succ m => exact ih n m (fun h => hne (congrArg Nat.succ h))

theorem get?_modAt_self (f : DElem → DElem) :
    ∀ (l : List DElem) (k : Nat) (e : DElem), l.get? k = some e →
      (modAt l k f).get? k = some (f e) := by
  intro l
  induction l with
  | nil => intro k e h; cases h
  | cons a rest ih =>
    intro k e h
    cases k with
    | zero =>
      cases h
      rfl
    | succ n => exact ih n e h

theorem dtAt_modAt (f : DElem → DElem)
    (hf : ∀ e, (f e).depth = e.depth ∧ (f e).tag = e.tag)
    (l : List DElem) (k j : Nat) : dtAt (modAt l k f) j = dtAt l j := by
  by_cases hj : j = k
  · subst hj
    cases he : l.get? j with
    | none =>
      have hlen : l.length ≤ j := List.get?_eq_none.mp he
      have hm : (modAt l j f).get? j = none :=
        List.get?_eq_none.mpr (by rw [modAt_length]; exact hlen)
      unfold dtAt
      rw [hm, he]
    | some e =>
      unfold dtAt
      rw [get?_modAt_self f l j e he, he]
      simp [Option.map, (hf e).1, (hf e).2]
  · unfold dtAt
    rw [get?_modAt_ne f l k j hj]

theorem depthAt_congr {A B : List DElem} (hdt : ∀ j, dtAt A j = dtAt B j)
    (j : Nat) : depthAt A j = depthAt B j := by
  have h := hdt j
  unfold dtAt at h
  unfold depthAt
  cases ha : A.get? j with
  | none =>
    cases hb : B.get? j with
    | none => rfl
    | some b => rw [ha, hb] at h; cases h
  | some a =>
    cases hb : B.get? j with
    | none => rw [ha, hb] at h; cases h
    | some b =>
      rw [ha, hb] at h
      simp only [Option.map] at h
      injection h with h
      exact congrArg Prod.fst h

theorem ctlAt_congr {A B : List DElem} (hdt : ∀ j, dtAt A j = dtAt B j)
    (j : Nat) : ctlAt A j = ctlAt B j := by
  have h := hdt j
  unfold dtAt at h
  unfold ctlAt
  cases ha : A.get? j with
  | none =>
    cases hb : B.get? j with
    | none => rfl
    | some b => rw [ha, hb] at h; cases h
  | some a =>
    cases hb : B.get? j with
    | none => rw [ha, hb] at h; cases h
    | some b =>
      rw [ha, hb] at h
      simp only [Option.map] at h
      injection h with h
      have ht : a.tag = b.tag := congrArg Prod.snd h
      dsimp only
      unfold isCtl
      rw [ht]

theorem isDesc_congr {A B : List DElem} (hlen : A.length = B.length)
    (hdt : ∀ j, dtAt A j = dtAt B j) (k j : Nat) :
    isDesc A k j = isDesc B k j := by
  unfold isDesc
  rw [hlen]
  have hf : (fun t => decide (depthAt A k < depthAt A (k + 1 + t)))
      = (fun t => decide (depthAt B k < depthAt B (k + 1 + t))) := by
    funext t
    rw [depthAt_congr hdt k, depthAt_congr hdt (k + 1 + t)]
  rw [hf]

theorem firstCtlDesc_congr {A B : List DElem} (hlen : A.length = B.length)
    (hdt : ∀ j, dtAt A j = dtAt B j) (k : Nat) :
    firstCtlDesc A k = firstCtlDesc B k := by
  unfold firstCtlDesc
  rw [hlen]
  have hf : (fun j => isDesc A k j &&
      (match A.get? j with | some e => isCtl e | none => false))
      = (fun j => isDesc B k j &&
      (match B.get? j with | some e => isCtl e | none => false)) := by
    funext j
    rw [isDesc_congr hlen hdt k j,
        show (match A.get? j with | some e => isCtl e | none => false)
          = ctlAt A j from rfl,
        show (match B.get? j with | some e => isCtl e | none => false)
          = ctlAt B j from rfl,
        ctlAt_congr hdt j]
  rw [hf]

theorem parentIdx_congr {A B : List DElem}
    (hdt : ∀ j, dtAt A j = dtAt B j) (k : Nat) :
    parentIdx A k = parentIdx B k := by
  unfold parentIdx
  have hf : (fun j => decide (depthAt A j < depthAt A k))
      = (fun j => decide (depthAt B j < depthAt B k)) := by
    funext j
    rw [depthAt_congr hdt j, depthAt_congr hdt k]
  rw [hf]

theorem assocCtl_congr {A B : List DElem} (hlen : A.length = B.length)
    (hdt : ∀ j, dtAt A j = dtAt B j) (k : Nat) :
    assocCtl A k = assocCtl B k := by
  unfold assocCtl
  simp only [firstCtlDesc_congr hlen hdt, parentIdx_congr hdt]

theorem fieldElemIdxs_sorted (l : List DElem) :
    (fieldElemIdxs l).Pairwise (· < ·) := by
  unfold fieldElemIdxs
  exact List.Pairwise.sublist (List.filter_sublist _) (List.pairwise_lt_range _)

theorem mem_fieldElemIdxs {l : List DElem} {j : Nat} :
    j ∈ fieldElemIdxs l ↔ 1 ≤ j ∧ j < l.length ∧ formElemAt l j = true := by
  unfold fieldElemIdxs
  rw [List.mem_filter, List.mem_range]
  constructor
  · intro h
    obtain ⟨h1, h2⟩ := h
    rw [Bool.and_eq_true] at h2
    exact ⟨by simpa using h2.1, h1, h2.2⟩
  · intro h
    obtain ⟨h1, h2, h3⟩ := h
    refine ⟨h2, ?_⟩
    rw [Bool.and_eq_true]
    exact ⟨by simpa using h1, h3⟩

theorem firstCtlDesc_some {l : List DElem} {k j : Nat}
    (h : firstCtlDesc l k = some j) :
    j < l.length ∧ k < j ∧ ctlAt l j = true := by
  unfold firstCtlDesc at h
  have hmem := List.mem_of_find?_eq_some h
  have hp := List.find?_some h
  rw [List.mem_range] at hmem
  rw [Bool.and_eq_true] at hp
  have hdesc := hp.1
  unfold isDesc at hdesc
  rw [Bool.and_eq_true, Bool.and_eq_true] at hdesc
  exact ⟨hmem, by simpa using hdesc.1.1, hp.2⟩

theorem parentIdx_some {l : List DElem} {k p : Nat}
    (h : parentIdx l k = some p) : p < k := by
  unfold parentIdx at h
  have hmem := List.mem_of_getLast?_eq_some h
  have hm2 := List.mem_of_mem_filter hmem
  rwa [List.mem_range] at hm2

theorem assocCtl_some {l : List DElem} {k j : Nat}
    (h : assocCtl l k = some j) :
    1 ≤ j ∧ j < l.length ∧ ctlAt l j = true := by
  unfold assocCtl at h
  cases hf : firstCtlDesc l k with
  | some j0 =>
    rw [hf] at h
    injection h with h
    subst h
    obtain ⟨h1, h2, h3⟩ := firstCtlDesc_some hf
    exact ⟨by omega, h1, h3⟩
  | none =>
    rw [hf] at h
    cases hp : parentIdx l k with
    | none => rw [hp] at h; cases h
    | some p =>
      rw [hp] at h
      obtain ⟨h1, h2, h3⟩ := firstCtlDesc_some h
      exact ⟨by omega, h1, h3⟩

theorem dtAt_modAt_p1 (pfx : String) (i : Nat) (l : List DElem) (k j : Nat) :
    dtAt (modAt l k (fun e =>
      { e with nameAttr := updAttrVal pfx i e.nameAttr,
               idAttr := updAttrVal pfx i e.idAttr,
               forAttr := updAttrVal pfx i e.forAttr,
               dataName := updAttrVal pfx i e.dataName })) j = dtAt l j := by
  refine dtAt_modAt _ ?_ l k j
  intro e
  exact ⟨rfl, rfl⟩

theorem dtAt_modAt_for (v : Option String) (l : List DElem) (k j : Nat) :
    dtAt (modAt l k (fun e2 => { e2 with forAttr := some (v.getD "null") })) j
      = dtAt l j := by
  refine dtAt_modAt _ ?_ l k j
  intro e
  exact ⟨rfl, rfl⟩

theorem dt_rewrittenElem (pfx : String) (i : Nat) (l : List DElem) (k : Nat)
    (e : DElem) : (rewrittenElem pfx i l k e).depth = e.depth ∧
      (rewrittenElem pfx i l k e).tag = e.tag := by
  unfold rewrittenElem rewrittenNonLabel
  split
  · exact ⟨rfl, rfl⟩
  · exact ⟨rfl, rfl⟩

theorem idAttr_rewrittenElem (pfx : String) (i : Nat) (l : List DElem)
    (k : Nat) (e : DElem) :
    (rewrittenElem pfx i l k e).idAttr = updAttrVal pfx i e.idAttr := by
  unfold rewrittenElem rewrittenNonLabel
  split
  · rfl
  · rfl

theorem tag_ne_label_of_isCtl {e : DElem} (h : isCtl e = true) :
    (e.tag == "label") = false := by
  unfold isCtl at h
  cases hl : e.tag == "label" with
  | false => rfl
  | true =>
    have he : e.tag = "label" := by simpa using hl
    rw [he] at h
    exact absurd h (by decide)

theorem modAt_p1_length (pfx : String) (i : Nat) (X : List DElem) (k : Nat) :
    (modAt X k (fun e =>
      { e with nameAttr := updAttrVal pfx i e.nameAttr,
               idAttr := updAttrVal pfx i e.idAttr,
               forAttr := updAttrVal pfx i e.forAttr,
               dataName := updAttrVal pfx i e.dataName })).length = X.length :=
  modAt_length _ X k

theorem updateFieldElement_len (pfx : String) (i : Nat) (X : List DElem)
    (k : Nat) : (updateFieldElement pfx i X k).length = X.length := by
  unfold updateFieldElement
  dsimp only
  split
  · split
    · split
      · rw [modAt_length, modAt_length]
      · rw [modAt_length]
    · rw [modAt_length]
  · rw [modAt_length]

theorem updateFieldElement_get_ne (pfx : String) (i : Nat) (X : List DElem)
    (k j : Nat) (hne : j ≠ k) :
    (updateFieldElement pfx i X k).get? j = X.get? j := by
  unfold updateFieldElement
  dsimp only
  split
  · split
    · split
      · rw [get?_modAt_ne _ _ _ _ hne, get?_modAt_ne _ _ _ _ hne]
      · rw [get?_modAt_ne _ _ _ _ hne]
    · rw [get?_modAt_ne _ _ _ _ hne]
  · rw [get?_modAt_ne _ _ _ _ hne]

theorem updateFieldElement_get_self (pfx : String) (i : Nat) (l : List DElem)
    (k : Nat) (X : List DElem) (ek : DElem)
    (hlen : X.length = l.length)
    (hdtX : ∀ j, dtAt X j = dtAt l j)
    (hXk : X.get? k = some ek)
    (hlk : l.get? k = some ek)
    (hid : ∀ j a, assocCtl l k = some j → X.get? j = some a →
      a.idAttr = (if j < k then updAttrVal pfx i (idAt l j) else idAt l j)) :
    (updateFieldElement pfx i X k).get? k
      = some (rewrittenElem pfx i l k ek) := by
  unfold updateFieldElement
  dsimp only
  split
  next e heq =>
    have heq2 := heq
    rw [get?_modAt_self _ X k ek hXk] at heq2
    injection heq2 with heq2
    subst heq2
    dsimp only
    split
    next hl =>
      have hdt1 := fun jj => (dtAt_modAt_p1 pfx i X k jj).trans (hdtX jj)
      have hlen1 := (modAt_p1_length pfx i X k).trans hlen
      have hac := assocCtl_congr hlen1 hdt1 k
      rw [hac]
      split
      next j hacj =>
        have hjlen : j < l.length := (assocCtl_some hacj).2.1
        obtain ⟨a, hXja⟩ : ∃ a, X.get? j = some a := by
          cases hc : X.get? j with
          | some a => exact ⟨a, rfl⟩
          | none =>
            have hc2 := List.get?_eq_none.mp hc
            rw [hlen] at hc2
            omega
        have hctl := (assocCtl_some hacj).2.2
        have hjk : j ≠ k := by
          intro hj
          subst hj
          unfold ctlAt at hctl
          rw [hlk] at hctl
          dsimp only at hctl
          have hnl := tag_ne_label_of_isCtl hctl
          rw [hl] at hnl
          cases hnl
        rw [get?_modAt_ne _ X k j hjk, hXja]
        dsimp only
        rw [hid j a hacj hXja]
        rw [get?_modAt_self _ _ _ _ heq]
        unfold rewrittenElem labelForResult
        rw [if_pos hl, hacj]
        rfl
      next hacn =>
        rw [heq]
        unfold rewrittenElem labelForResult
        rw [if_pos hl, hacn]
        rfl
    next hl =>
      rw [get?_modAt_self _ X k ek hXk]
      unfold rewrittenElem
      rw [if_neg hl]
      rfl
  next heq =>
    rw [get?_modAt_self _ X k ek hXk] at heq
    cases heq

theorem rewrite_fold_spec (pfx : String) (i : Nat) (l : List DElem) :
    ∀ (todo done : List Nat) (A : List DElem),
      done ++ todo = fieldElemIdxs l →
      A.length = l.length →
      (∀ j, j ∉ done → A.get? j = l.get? j) →
      (∀ j ∈ done, ∀ e, l.get? j = some e →
        A.get? j = some (rewrittenElem pfx i l j e)) →
      (todo.foldl (fun acc k => updateFieldElement pfx i acc k) A).length
          = l.length ∧
      (∀ j, j ∉ fieldElemIdxs l →
        (todo.foldl (fun acc k => updateFieldElement pfx i acc k) A).get? j
          = l.get? j) ∧
      (∀ j ∈ fieldElemIdxs l, ∀ e, l.get? j = some e →
        (todo.foldl (fun acc k => updateFieldElement pfx i acc k) A).get? j
          = some (rewrittenElem pfx i l j e)) := by
  intro todo
  induction todo with
  | nil =>
    intro done A hsplit hlen hout hin
    simp only [List.foldl_nil]
    rw [List.append_nil] at hsplit
    subst hsplit
    exact ⟨hlen, hout, hin⟩
  | cons k todo ih =>
    intro done A hsplit hlen hout hin
    simp only [List.foldl_cons]
    have hPsort : (fieldElemIdxs l).Pairwise (· < ·) := fieldElemIdxs_sorted l
    rw [← hsplit] at hPsort
    have hsplit2 := List.pairwise_append.mp hPsort
    have hdone_lt : ∀ d ∈ done, d < k :=
      fun d hd => hsplit2.2.2 d hd k (List.mem_cons_self k todo)
    have hkdone : k ∉ done := fun hk => absurd (hdone_lt k hk) (Nat.lt_irrefl k)
    have hkP : k ∈ fieldElemIdxs l := by
      rw [← hsplit]
      exact List.mem_append.mpr (Or.inr (List.mem_cons_self k todo))
    have hktodo_lt : ∀ t ∈ todo, k < t :=
      (List.pairwise_cons.mp hsplit2.2.1).1
    have hdone_sub : ∀ j ∈ fieldElemIdxs l, j < k → j ∈ done := by
      intro j hj hjk
      rw [← hsplit] at hj
      rcases List.mem_append.mp hj with h | h
      · exact h
      · rcases List.mem_cons.mp h with h | h
        · omega
        · exact absurd (hktodo_lt j h) (by omega)
    obtain ⟨hk1, hklen, hkform⟩ := mem_fieldElemIdxs.mp hkP
    obtain ⟨ek, hek⟩ : ∃ e, l.get? k = some e := by
      cases hc : l.get? k with
      | some e => exact ⟨e, rfl⟩
      | none =>
        have hc2 := List.get?_eq_none.mp hc
        omega
    have hAk : A.get? k = some ek := by rw [hout k hkdone]; exact hek
    have hdtA : ∀ j, dtAt A j = dtAt l j := by
      intro j
      by_cases hj : j ∈ done
      · cases he : l.get? j with
        | none =>
          have hA : A.get? j = none :=
            List.get?_eq_none.mpr (by rw [hlen]; exact List.get?_eq_none.mp he)
          unfold dtAt
          rw [hA, he]
        | some e =>
          unfold dtAt
          rw [hin j hj e he, he]
          simp [Option.map, (dt_rewrittenElem pfx i l j e).1,
                (dt_rewrittenElem pfx i l j e).2]
      · unfold dtAt
        rw [hout j hj]
    have hid : ∀ j a, assocCtl l k = some j → A.get? j = some a →
        a.idAttr = (if j < k then updAttrVal pfx i (idAt l j)
          else idAt l j) := by
      intro j a hacj hAja
      obtain ⟨hj1, hjlen, hjctl⟩ := assocCtl_some hacj
      unfold ctlAt at hjctl
      split at hjctl
      next a' hlj =>
        by_cases hjk : j < k
        · have hjP : j ∈ fieldElemIdxs l := by
            rw [mem_fieldElemIdxs]
            refine ⟨hj1, hjlen, ?_⟩
            unfold formElemAt
            rw [hlj]
            dsimp only
            unfold isFormElem
            rw [hjctl]
            rfl
          have hjdone := hdone_sub j hjP hjk
          have hval := hin j hjdone a' hlj
          rw [hAja] at hval
          injection hval with hval
          rw [hval, idAttr_rewrittenElem, if_pos hjk]
          unfold idAt
          rw [hlj]
          rfl
        · have hjdone : j ∉ done := fun hjd => hjk (hdone_lt j hjd)
          have hval := hout j hjdone
          rw [hAja, hlj] at hval
          injection hval with hval
          rw [if_neg hjk]
          unfold idAt
          rw [hlj, hval]
          rfl
      next hlj =>
        cases hjctl
    have hlen' : (updateFieldElement pfx i A k).length = l.length :=
      (updateFieldElement_len pfx i A k).trans hlen
    have hout' : ∀ j, j ∉ done ++ [k] →
        (updateFieldElement pfx i A k).get? j = l.get? j := by
      intro j hj
      rw [List.mem_append] at hj
      push_neg at hj
      have hjk : j ≠ k := fun h => hj.2 (by rw [h]; exact List.mem_singleton_self k)
      rw [updateFieldElement_get_ne pfx i A k j hjk]
      exact hout j hj.1
    have hin' : ∀ j ∈ done ++ [k], ∀ e, l.get? j = some e →
        (updateFieldElement pfx i A k).get? j
          = some (rewrittenElem pfx i l j e) := by
      intro j hj e he
      rcases List.mem_append.mp hj with hj | hj
      · have hjk : j ≠ k := fun h => hkdone (h ▸ hj)
        rw [updateFieldElement_get_ne pfx i A k j hjk]
        exact hin j hj e he
      · have hjk : j = k := List.mem_singleton.mp hj
        subst hjk
        rw [hek] at he
        injection he with he
        subst he
        exact updateFieldElement_get_self pfx i l j A ek hlen hdtA hAk hek hid
    have hsplit' : (done ++ [k]) ++ todo = fieldElemIdxs l := by
      rw [List.append_assoc]
      simpa using hsplit
    exact ih (done ++ [k]) (updateFieldElement pfx i A k) hsplit' hlen' hout' hin'

/-- Claim C6 counterexample: in the usual authoring order — a wrapper
whose label precedes the input it references — the rewrite with
`fieldPrefix = "field"` and index 2 leaves the label's `for` at the
control's old identifier `"school"` while the control's `id` becomes
`"field-2-school"`: the label is processed before its control, so the
association is read from the not-yet-rewritten `id`, and the claimed
reconnection to the control's rewritten identifier fails. -/
theorem C6_counterexample :
    ((updateAllFieldElements "field" 2 sSubtree).get? 1).map
        (fun e => e.forAttr) = some (some "school") ∧
    ((updateAllFieldElements "field" 2 sSubtree).get? 2).map
        (fun e => e.idAttr) = some (some "field-2-school") ∧
    (some "school" : Option String) ≠ some "field-2-school" := by
  decide

/-- Claim C6 (as corrected): for every cloned subtree (pre-order
flattening `l`), prefix `pfx` and index `i`, the rewrite preserves the
number of elements, leaves every element that does not match the selector
unchanged, and replaces the element at each matching index `k` by
`rewrittenElem pfx i l k e`: the four identifying attributes (`name`,
`id`, `for`, `data-name`) prefixed with `pfx-i-` when present and
non-empty (absent and empty values are left alone), and, on labels, `for`
then overwritten with the associated control's `id` as it stands when the
label is processed — the prefixed `id` when the control precedes the
label in document order, the original un-prefixed `id` otherwise, and a
missing `id` coerced to the string `"null"`; depth, tag and all other
attributes are untouched. -/
theorem C6_rewrite_amended (pfx : String) (i : Nat) (l : List DElem) :
    (updateAllFieldElements pfx i l).length = l.length ∧
    (∀ j, j ∉ fieldElemIdxs l →
      (updateAllFieldElements pfx i l).get? j = l.get? j) ∧
    (∀ j ∈ fieldElemIdxs l, ∀ e, l.get? j = some e →
      (updateAllFieldElements pfx i l).get? j
        = some (rewrittenElem pfx i l j e)) := by
  unfold updateAllFieldElements
  exact rewrite_fold_spec pfx i l (fieldElemIdxs l) [] l rfl rfl
    (fun j _ => rfl) (fun j hj => absurd hj (List.not_mem_nil j))

/-- Claim C6 amended witness: the characterization evaluated on the
counterexample subtree — the wrapper at index 0 is untouched and the
input at index 2 carries the four prefixed attributes. -/
theorem C6_witness :
    (updateAllFieldElements "field" 2 sSubtree).get? 0 = sSubtree.get? 0 ∧
    (updateAllFieldElements "field" 2 sSubtree).get? 2
      = some (rewrittenElem "field" 2 sSubtree 2
          { depth := 2, tag := "input", nameAttr := some "school",
            idAttr := some "school", forAttr := none, dataName := none,
            other := [] }) := by
  have h := C6_rewrite_amended "field" 2 sSubtree
  exact ⟨h.2.1 0 (by decide), h.2.2 2 (by decide) _ rfl⟩

end DF





